import Mathlib

/-!
# Verification of the MMKV OpenHarmony NAPI bridge (`native_bridge.cpp`)

Shallow embedding of the language-boundary adapter in
`OpenHarmony/MMKV/src/main/cpp/native_bridge.cpp`.

Modelling conventions:

* A host (NAPI) dynamic value is `NapiValue`: undefined, null, boolean,
  number (an IEEE-754 double modelled symbolically by `F64`), bigint
  (arbitrary-precision `Int`, as ECMAScript BigInt), a string (its UTF-8
  byte sequence) or an ArrayBuffer (its byte sequence).

* IEEE-754 doubles are modelled by `F64`: NaN, signed infinity, or a
  finite value given by a sign and a non-negative rational magnitude.
  The adapter performs no floating-point arithmetic — doubles are only
  stored, retrieved, and converted to int32/uint32/bool by the
  ECMAScript `ToInt32` / `ToUint32` / `ToBoolean` rules, all of which
  are exact on this representation.

* The `napi_get_value_*` calls can fail (wrong value type).  The C
  functions `NValueToBool`, `NValueToInt32`, `NValueToUInt32`,
  `NValueToInt64`, `NValueToUInt64`, `NValueToDouble` ignore the status
  and return their stack variable, which is then uninitialized.  The
  embedding makes that explicit: an `Ambient` record carries one junk
  value per type, returned exactly on the failing paths.

* `NValueToString` resizes a `std::string` to the UTF-8 byte length and
  passes `result.capacity()` as the buffer size to
  `napi_get_value_string_utf8`.  The C++ standard only guarantees
  `capacity() ≥ size()`, and NAPI copies at most `bufsize - 1` bytes
  before NUL-terminating.  The capacity policy (a function from the
  resized length to the resulting capacity) is therefore a parameter of
  the embedding, carried in `Ambient`.

* The wrapped storage engine (class `MMKV`, `MMBuffer`, headers not
  under `src/`) is modelled from the spec as a per-handle typed
  key-value store plus a trace of engine operations, so that frame
  claims ("the only effect is the single engine call") are expressible.
-/

/-- UTF-8 byte strings (`std::string` contents / C string data). -/
abbrev ByteStr := List Nat

/-- Symbolic IEEE-754 double: NaN, a signed infinity, or a finite value
with a sign bit and a non-negative rational magnitude (`finite true 0`
is negative zero). -/
inductive F64 where
  | nan : F64
  | inf : Bool → F64
  | finite : Bool → ℚ → F64
deriving DecidableEq

/-- ECMAScript `ToBoolean` on a number: `false` exactly for NaN and ±0. -/
def F64.toBool : F64 → Bool
  | .nan => false
  | .inf _ => true
  | .finite _ m => decide (m ≠ 0)

/-- Truncation toward zero of the real value (0 for NaN and infinities),
the shared first step of ECMAScript `ToInt32` and `ToUint32`. -/
def F64.trunc : F64 → Int
  | .nan => 0
  | .inf _ => 0
  | .finite neg m => if neg then -⌊m⌋ else ⌊m⌋

/-- ECMAScript `ToInt32` (the semantics of `napi_get_value_int32` on a
number value): truncate, reduce mod 2^32 into [-2^31, 2^31). -/
def F64.toInt32 (f : F64) : Int :=
  if f.trunc % 4294967296 < 2147483648 then f.trunc % 4294967296
  else f.trunc % 4294967296 - 4294967296

/-- ECMAScript `ToUint32` (the semantics of `napi_get_value_uint32` on a
number value): truncate, reduce mod 2^32 into [0, 2^32). -/
def F64.toUInt32 (f : F64) : Nat :=
  (f.trunc % 4294967296).toNat

/-- The double produced by a C integer-to-double conversion (exact for
every value the bridge converts: bools, int32, uint32). -/
def F64.ofInt (n : Int) : F64 :=
  .finite (decide (n < 0)) (n.natAbs : ℚ)

/-- Host dynamic values (`napi_value`). -/
inductive NapiValue where
  | undefined : NapiValue
  | null : NapiValue
  | boolean : Bool → NapiValue
  | number : F64 → NapiValue
  | bigint : Int → NapiValue
  | string : ByteStr → NapiValue
  | arraybuffer : ByteStr → NapiValue
deriving DecidableEq

/-- ECMAScript `ToBoolean` (the semantics of `napi_coerce_to_bool`). -/
def jsToBoolean : NapiValue → Bool
  | .undefined => false
  | .null => false
  | .boolean b => b
  | .number f => f.toBool
  | .bigint i => decide (i ≠ 0)
  | .string s => decide (s ≠ [])
  | .arraybuffer _ => true

/-- `napi_get_value_bool`: succeeds exactly on booleans (no coercion). -/
def toBoolOpt : NapiValue → Option Bool
  | .boolean b => some b
  | _ => none

/-- `napi_get_value_int32`: succeeds exactly on numbers, via `ToInt32`. -/
def toInt32Opt : NapiValue → Option Int
  | .number f => some f.toInt32
  | _ => none

/-- `napi_get_value_uint32`: succeeds exactly on numbers, via `ToUint32`. -/
def toUInt32Opt : NapiValue → Option Nat
  | .number f => some f.toUInt32
  | _ => none

/-- `napi_get_value_double`: succeeds exactly on numbers. -/
def toDoubleOpt : NapiValue → Option F64
  | .number f => some f
  | _ => none

/-- `napi_get_value_bigint_int64`: succeeds exactly on bigints, returning
the low 64 bits interpreted as a signed 64-bit integer (the `lossless`
out-parameter is ignored by the bridge). -/
def toInt64Opt : NapiValue → Option Int
  | .bigint i =>
      some (if i % 18446744073709551616 < 9223372036854775808
            then i % 18446744073709551616
            else i % 18446744073709551616 - 18446744073709551616)
  | _ => none

/-- `napi_get_value_bigint_uint64`: succeeds exactly on bigints, returning
the low 64 bits interpreted as an unsigned 64-bit integer. -/
def toUInt64Opt : NapiValue → Option Nat
  | .bigint i => some (i % 18446744073709551616).toNat
  | _ => none

/-- Ambient context of a bridge call: the `std::string` capacity policy
(capacity after `resize n`, which C++ only constrains by `cap n ≥ n`)
and one junk value per primitive type, standing for the uninitialized
stack variable returned by the `NValueToX` helpers when the
`napi_get_value_*` call fails. -/
structure Ambient where
  cap : Nat → Nat
  jkBool : Bool
  jkI32 : Int
  jkU32 : Nat
  jkI64 : Int
  jkU64 : Nat
  jkF64 : F64

/-- `IsNValueUndefined`: `napi_typeof` succeeded and reported
`napi_undefined`. -/
def IsNValueUndefined : NapiValue → Bool
  | .undefined => true
  | _ => false

/-- `NValueToString`: returns "" for undefined when `maybeUndefined`;
otherwise asks NAPI for the UTF-8 byte length, resizes a `std::string`
to it, and copies through `napi_get_value_string_utf8` with
`result.capacity()` as the buffer size.  NAPI copies at most
`bufsize - 1` bytes and NUL-terminates (with `bufsize = 0` it copies
nothing), so bytes beyond `min size (cap size - 1)` remain the NUL
fill of `resize`.  On a non-string value the first NAPI call fails and
`NAPI_CALL_RET` returns "". -/
def NValueToString (A : Ambient) (maybeUndefined : Bool) (v : NapiValue) : ByteStr :=
  if maybeUndefined && IsNValueUndefined v then []
  else
    match v with
    | .string s =>
        let size := s.length
        let bufsize := A.cap size
        if bufsize = 0 then List.replicate size 0
        else s.take (min size (bufsize - 1)) ++
             List.replicate (size - min size (bufsize - 1)) 0
    | _ => []

/-- `StringToNValue`: `napi_create_string_utf8` over `(data, size)`. -/
def StringToNValue (s : ByteStr) : NapiValue :=
  .string s

/-- `NValueToMMBuffer`: empty buffer for undefined when `maybeUndefined`;
otherwise the ArrayBuffer contents via `napi_get_arraybuffer_info`, or
an empty `MMBuffer()` when the value is not an ArrayBuffer. -/
def NValueToMMBuffer (maybeUndefined : Bool) (v : NapiValue) : ByteStr :=
  if maybeUndefined && IsNValueUndefined v then []
  else
    match v with
    | .arraybuffer b => b
    | _ => []

/-- `MMBufferToNValue`: `napi_create_arraybuffer` of the buffer's length
followed by a `memcpy` of its bytes. -/
def MMBufferToNValue (b : ByteStr) : NapiValue :=
  .arraybuffer b

/-- `NAPIUndefined`: `napi_get_undefined`. -/
def NAPIUndefined : NapiValue := .undefined

/-- `NAPINull`: `napi_get_null`. -/
def NAPINull : NapiValue := .null

/-- `BoolToNValue`: `napi_create_double` on the bool (C++ converts the
bool to 0.0 or 1.0) followed by `napi_coerce_to_bool`. -/
def BoolToNValue (b : Bool) : NapiValue :=
  .boolean (jsToBoolean (.number (F64.ofInt (if b then 1 else 0))))

/-- `NValueToBool`: `napi_get_value_bool` with the status ignored; on
failure the uninitialized stack variable (`jkBool`) is returned. -/
def NValueToBool (A : Ambient) (v : NapiValue) : Bool :=
  (toBoolOpt v).getD A.jkBool

/-- `Int32ToNValue`: `napi_create_int32` (exact). -/
def Int32ToNValue (n : Int) : NapiValue :=
  .number (F64.ofInt n)

/-- `NValueToInt32`: `napi_get_value_int32` with the status ignored; on
failure the uninitialized stack variable (`jkI32`) is returned. -/
def NValueToInt32 (A : Ambient) (v : NapiValue) : Int :=
  (toInt32Opt v).getD A.jkI32

/-- `UInt32ToNValue`: `napi_create_uint32` (exact). -/
def UInt32ToNValue (n : Nat) : NapiValue :=
  .number (F64.ofInt n)

/-- `NValueToUInt32`: `napi_get_value_uint32` with the status ignored; on
failure the uninitialized stack variable (`jkU32`) is returned. -/
def NValueToUInt32 (A : Ambient) (v : NapiValue) : Nat :=
  (toUInt32Opt v).getD A.jkU32

/-- `DoubleToNValue`: `napi_create_double` (exact). -/
def DoubleToNValue (d : F64) : NapiValue :=
  .number d

/-- `NValueToDouble`: `napi_get_value_double` with the status ignored; on
failure the uninitialized stack variable (`jkF64`) is returned. -/
def NValueToDouble (A : Ambient) (v : NapiValue) : F64 :=
  (toDoubleOpt v).getD A.jkF64

/-- `Int64ToNValue`: `napi_create_bigint_int64` (exact). -/
def Int64ToNValue (n : Int) : NapiValue :=
  .bigint n

/-- `NValueToInt64`: `napi_get_value_bigint_int64` with the status and the
`lossless` flag ignored; on failure the uninitialized stack variable
(`jkI64`) is returned. -/
def NValueToInt64 (A : Ambient) (v : NapiValue) : Int :=
  (toInt64Opt v).getD A.jkI64

/-- `UInt64ToNValue`: `napi_create_bigint_uint64` (exact). -/
def UInt64ToNValue (n : Nat) : NapiValue :=
  .bigint n

/-- `NValueToUInt64`: `napi_get_value_bigint_uint64` with the status and
the `lossless` flag ignored; on failure the uninitialized stack
variable (`jkU64`) is returned. -/
def NValueToUInt64 (A : Ambient) (v : NapiValue) : Nat :=
  (toUInt64Opt v).getD A.jkU64

/-- A value stored by the engine, tagged with the native type of the
`MMKV::set` overload that stored it. -/
inductive TypedValue where
  | tvBool : Bool → TypedValue
  | tvInt32 : Int → TypedValue
  | tvUInt32 : Nat → TypedValue
  | tvInt64 : Int → TypedValue
  | tvUInt64 : Nat → TypedValue
  | tvDouble : F64 → TypedValue
  | tvString : ByteStr → TypedValue
  | tvBytes : ByteStr → TypedValue
deriving DecidableEq

/-- Per-instance engine store: key to typed value. -/
abbrev Store := List (ByteStr × TypedValue)

/-- One engine operation, as recorded in the trace: a `set` (with the
optional expiration), a `get` (with the default handed to the engine,
`none` for the string/bytes getters which take no default), or a
`defaultMMKV` open. -/
inductive EngineOp where
  | setOp : Nat → ByteStr → TypedValue → Option Nat → EngineOp
  | getOp : Nat → ByteStr → Option TypedValue → EngineOp
  | openOp : Int → Option ByteStr → EngineOp
deriving DecidableEq

/-- Global state of the wrapped engine and of the bridge's globals:
the live instances (handle to store), the trace of engine operations,
the engine root dir / bridge tmp dir / log level set by `initialize`,
and the handles the two `MMKV::defaultMMKV` opens would return
(`encHandle = 0` models a failed encrypted open). -/
structure EngineState where
  instances : List (Nat × Store)
  trace : List EngineOp
  rootDir : ByteStr
  tmpDir : ByteStr
  logLevel : Int
  encHandle : Nat
  defHandle : Nat
deriving DecidableEq

/-- Insert-or-replace in a store. -/
def storePut (st : Store) (k : ByteStr) (v : TypedValue) : Store :=
  match st with
  | [] => [(k, v)]
  | (k', v') :: rest => if k' = k then (k, v) :: rest else (k', v') :: storePut rest k v

/-- The store of instance `h`, if `h` is a live handle. -/
def lookupInst (s : EngineState) (h : Nat) : Option Store :=
  (s.instances.find? (fun p => p.1 = h)).map Prod.snd

/-- The typed value instance `h` holds at key `k`, if any. -/
def lookupVal (s : EngineState) (h : Nat) (k : ByteStr) : Option TypedValue :=
  (lookupInst s h).bind (fun st => (st.find? (fun p => p.1 = k)).map Prod.snd)

/-- Update the store of instance `h` (no-op on the instance list when the
handle is not live; the bridge only reaches this with a live handle). -/
def updInst (l : List (Nat × Store)) (h : Nat) (k : ByteStr) (v : TypedValue) :
    List (Nat × Store) :=
  l.map (fun p => if p.1 = h then (p.1, storePut p.2 k v) else p)

/-- Modelled from the spec: the wrapped engine's `set` operation
(`MMKV::set` overloads; `MMKV.h` is not under `src/`).  Stores the
typed value under the key in the addressed instance, records the
operation (with its optional expiration) in the trace, and reports
success. -/
def engineSet (h : Nat) (k : ByteStr) (v : TypedValue) (e : Option Nat)
    (s : EngineState) : Bool × EngineState :=
  (true, { s with instances := updInst s.instances h k v,
                  trace := s.trace ++ [.setOp h k v e] })

/-- Modelled from the spec: `MMKV::getBool` — the stored boolean at the
key, or the supplied default; records the get in the trace. -/
def engineGetBool (h : Nat) (k : ByteStr) (d : Bool) (s : EngineState) :
    Bool × EngineState :=
  (match lookupVal s h k with
   | some (.tvBool b) => b
   | _ => d,
   { s with trace := s.trace ++ [.getOp h k (some (.tvBool d))] })

/-- Modelled from the spec: `MMKV::getInt32`. -/
def engineGetInt32 (h : Nat) (k : ByteStr) (d : Int) (s : EngineState) :
    Int × EngineState :=
  (match lookupVal s h k with
   | some (.tvInt32 n) => n
   | _ => d,
   { s with trace := s.trace ++ [.getOp h k (some (.tvInt32 d))] })

/-- Modelled from the spec: `MMKV::getUInt32`. -/
def engineGetUInt32 (h : Nat) (k : ByteStr) (d : Nat) (s : EngineState) :
    Nat × EngineState :=
  (match lookupVal s h k with
   | some (.tvUInt32 n) => n
   | _ => d,
   { s with trace := s.trace ++ [.getOp h k (some (.tvUInt32 d))] })

/-- Modelled from the spec: `MMKV::getInt64`. -/
def engineGetInt64 (h : Nat) (k : ByteStr) (d : Int) (s : EngineState) :
    Int × EngineState :=
  (match lookupVal s h k with
   | some (.tvInt64 n) => n
   | _ => d,
   { s with trace := s.trace ++ [.getOp h k (some (.tvInt64 d))] })

/-- Modelled from the spec: `MMKV::getUInt64`. -/
def engineGetUInt64 (h : Nat) (k : ByteStr) (d : Nat) (s : EngineState) :
    Nat × EngineState :=
  (match lookupVal s h k with
   | some (.tvUInt64 n) => n
   | _ => d,
   { s with trace := s.trace ++ [.getOp h k (some (.tvUInt64 d))] })

/-- Modelled from the spec: `MMKV::getDouble`. -/
def engineGetDouble (h : Nat) (k : ByteStr) (d : F64) (s : EngineState) :
    F64 × EngineState :=
  (match lookupVal s h k with
   | some (.tvDouble x) => x
   | _ => d,
   { s with trace := s.trace ++ [.getOp h k (some (.tvDouble d))] })

/-- Modelled from the spec: `MMKV::getString` — succeeds with the stored
string (filling the out-parameter) or fails; no default argument. -/
def engineGetString (h : Nat) (k : ByteStr) (s : EngineState) :
    Option ByteStr × EngineState :=
  (match lookupVal s h k with
   | some (.tvString b) => some b
   | _ => none,
   { s with trace := s.trace ++ [.getOp h k none] })

/-- Modelled from the spec: `MMKV::getBytes` — succeeds with the stored
buffer (filling the out-parameter) or fails; no default argument. -/
def engineGetBytes (h : Nat) (k : ByteStr) (s : EngineState) :
    Option ByteStr × EngineState :=
  (match lookupVal s h k with
   | some (.tvBytes b) => some b
   | _ => none,
   { s with trace := s.trace ++ [.getOp h k none] })

/-- Modelled from the spec: `MMKV::initializeMMKV` — configures the
engine's root directory and log level. -/
def engineSetup (root : ByteStr) (lvl : Int) (s : EngineState) : EngineState :=
  { s with rootDir := root, logLevel := lvl }

/-- Modelled from the spec: `MMKV::getRootDir`. -/
def engineGetRootDir (s : EngineState) : ByteStr :=
  s.rootDir

/-- Modelled from the spec: `MMKV::defaultMMKV` — opens the default
instance, encrypted when a crypt key is passed.  The handle returned by
each variant is part of the state (`encHandle` may be `0`, a null
instance, modelling a failed encrypted open); the open is recorded in
the trace. -/
def engineDefaultMMKV (mode : Int) (crypt : Option ByteStr) (s : EngineState) :
    Nat × EngineState :=
  match crypt with
  | some k => (s.encHandle, { s with trace := s.trace ++ [.openOp mode (some k)] })
  | none => (s.defHandle, { s with trace := s.trace ++ [.openOp mode none] })

/-- Modelled from the spec: the engine's version string constant
(`MMKV_VERSION` in `MMKVPredef.h`, not under `src/`); its exact
contents are immaterial to every claim. -/
def mmkvVersionBytes : ByteStr := [118, 50]

/-- A native entry point: ambient context, the call's arguments
(`napi_get_cb_info` pads missing arguments with `undefined`, hence
`List.getD i .undefined` below), and the engine state, to the returned
host value and the new state. -/
abbrev EntryFn := Ambient → List NapiValue → EngineState → NapiValue × EngineState

/-- `initialize` (named `initEntry` here because the source's name is a
reserved Lean keyword): reads root dir, cache dir and log level,
configures the engine, stores the cache dir in the bridge global
`g_android_tmpDir`, and returns the engine's root dir.  A failing
`napi_get_value_int32` makes `NAPI_CALL` throw and return a null
`napi_value` (modelled as `undefined`). -/
def initEntry : EntryFn := fun A args s =>
  let a0 := args.getD 0 .undefined
  let a1 := args.getD 1 .undefined
  let a2 := args.getD 2 .undefined
  let rootDir := NValueToString A false a0
  let cacheDir := NValueToString A false a1
  match toInt32Opt a2 with
  | none => (.undefined, s)
  | some logLevel =>
    let s1 := engineSetup rootDir logLevel s
    let s2 := { s1 with tmpDir := cacheDir }
    (StringToNValue (engineGetRootDir s2), s2)

/-- `version`: `napi_create_string_latin1` of `MMKV_VERSION`. -/
def version : EntryFn := fun _ _ s =>
  (.string mmkvVersionBytes, s)

/-- `getDefaultMMKV`: reads the mode and the (possibly undefined) crypt
key; attempts the encrypted default instance only for a non-empty
crypt key; falls back to the plain default instance when that attempt
was not made or returned null; returns the handle as a uint64 bigint. -/
def getDefaultMMKV : EntryFn := fun A args s =>
  let a0 := args.getD 0 .undefined
  let a1 := args.getD 1 .undefined
  match toInt32Opt a0 with
  | none => (.undefined, s)
  | some mode =>
    let crypt := NValueToString A true a1
    let p1 := if 0 < crypt.length then engineDefaultMMKV mode (some crypt) s else (0, s)
    let p2 := if p1.1 = 0 then engineDefaultMMKV mode none p1.2 else p1
    (UInt64ToNValue p2.1, p2.2)

/-- `encodeBool`: handle and key first; with a non-null handle and a
non-empty key, one engine `set` of the boolean, without expiration when
the fourth argument is undefined, with the uint32 expiration otherwise;
the `set` result is returned as a host boolean.  Otherwise host `false`. -/
def encodeBool : EntryFn := fun A args s =>
  let a0 := args.getD 0 .undefined
  let a1 := args.getD 1 .undefined
  let a2 := args.getD 2 .undefined
  let a3 := args.getD 3 .undefined
  let handle := NValueToUInt64 A a0
  let key := NValueToString A false a1
  if handle ≠ 0 ∧ 0 < key.length then
    let value := NValueToBool A a2
    if IsNValueUndefined a3 then
      let p := engineSet handle key (.tvBool value) none s
      (BoolToNValue p.1, p.2)
    else
      let expiration := NValueToUInt32 A a3
      let p := engineSet handle key (.tvBool value) (some expiration) s
      (BoolToNValue p.1, p.2)
  else
    (BoolToNValue false, s)

/-- `decodeBool`: with a non-null handle and a non-empty key, one engine
`getBool` with the converted default, returned as a host boolean;
otherwise the converted default as a host boolean. -/
def decodeBool : EntryFn := fun A args s =>
  let a0 := args.getD 0 .undefined
  let a1 := args.getD 1 .undefined
  let a2 := args.getD 2 .undefined
  let handle := NValueToUInt64 A a0
  let key := NValueToString A false a1
  let defaultValue := NValueToBool A a2
  if handle ≠ 0 ∧ 0 < key.length then
    let p := engineGetBool handle key defaultValue s
    (BoolToNValue p.1, p.2)
  else
    (BoolToNValue defaultValue, s)

/-- `encodeInt32` (same shape as `encodeBool`, int32 value). -/
def encodeInt32 : EntryFn := fun A args s =>
  let a0 := args.getD 0 .undefined
  let a1 := args.getD 1 .undefined
  let a2 := args.getD 2 .undefined
  let a3 := args.getD 3 .undefined
  let handle := NValueToUInt64 A a0
  let key := NValueToString A false a1
  if handle ≠ 0 ∧ 0 < key.length then
    let value := NValueToInt32 A a2
    if IsNValueUndefined a3 then
      let p := engineSet handle key (.tvInt32 value) none s
      (BoolToNValue p.1, p.2)
    else
      let expiration := NValueToUInt32 A a3
      let p := engineSet handle key (.tvInt32 value) (some expiration) s
      (BoolToNValue p.1, p.2)
  else
    (BoolToNValue false, s)

/-- `decodeInt32` (same shape as `decodeBool`, engine `getInt32`). -/
def decodeInt32 : EntryFn := fun A args s =>
  let a0 := args.getD 0 .undefined
  let a1 := args.getD 1 .undefined
  let a2 := args.getD 2 .undefined
  let handle := NValueToUInt64 A a0
  let key := NValueToString A false a1
  let defaultValue := NValueToInt32 A a2
  if handle ≠ 0 ∧ 0 < key.length then
    let p := engineGetInt32 handle key defaultValue s
    (Int32ToNValue p.1, p.2)
  else
    (Int32ToNValue defaultValue, s)

/-- `encodeUInt32`. -/
def encodeUInt32 : EntryFn := fun A args s =>
  let a0 := args.getD 0 .undefined
  let a1 := args.getD 1 .undefined
  let a2 := args.getD 2 .undefined
  let a3 := args.getD 3 .undefined
  let handle := NValueToUInt64 A a0
  let key := NValueToString A false a1
  if handle ≠ 0 ∧ 0 < key.length then
    let value := NValueToUInt32 A a2
    if IsNValueUndefined a3 then
      let p := engineSet handle key (.tvUInt32 value) none s
      (BoolToNValue p.1, p.2)
    else
      let expiration := NValueToUInt32 A a3
      let p := engineSet handle key (.tvUInt32 value) (some expiration) s
      (BoolToNValue p.1, p.2)
  else
    (BoolToNValue false, s)

/-- `decodeUInt32`. -/
def decodeUInt32 : EntryFn := fun A args s =>
  let a0 := args.getD 0 .undefined
  let a1 := args.getD 1 .undefined
  let a2 := args.getD 2 .undefined
  let handle := NValueToUInt64 A a0
  let key := NValueToString A false a1
  let defaultValue := NValueToUInt32 A a2
  if handle ≠ 0 ∧ 0 < key.length then
    let p := engineGetUInt32 handle key defaultValue s
    (UInt32ToNValue p.1, p.2)
  else
    (UInt32ToNValue defaultValue, s)

/-- `encodeInt64`. -/
def encodeInt64 : EntryFn := fun A args s =>
  let a0 := args.getD 0 .undefined
  let a1 := args.getD 1 .undefined
  let a2 := args.getD 2 .undefined
  let a3 := args.getD 3 .undefined
  let handle := NValueToUInt64 A a0
  let key := NValueToString A false a1
  if handle ≠ 0 ∧ 0 < key.length then
    let value := NValueToInt64 A a2
    if IsNValueUndefined a3 then
      let p := engineSet handle key (.tvInt64 value) none s
      (BoolToNValue p.1, p.2)
    else
      let expiration := NValueToUInt32 A a3
      let p := engineSet handle key (.tvInt64 value) (some expiration) s
      (BoolToNValue p.1, p.2)
  else
    (BoolToNValue false, s)

/-- `decodeInt64`. -/
def decodeInt64 : EntryFn := fun A args s =>
  let a0 := args.getD 0 .undefined
  let a1 := args.getD 1 .undefined
  let a2 := args.getD 2 .undefined
  let handle := NValueToUInt64 A a0
  let key := NValueToString A false a1
  let defaultValue := NValueToInt64 A a2
  if handle ≠ 0 ∧ 0 < key.length then
    let p := engineGetInt64 handle key defaultValue s
    (Int64ToNValue p.1, p.2)
  else
    (Int64ToNValue defaultValue, s)

/-- `encodeUInt64`. -/
def encodeUInt64 : EntryFn := fun A args s =>
  let a0 := args.getD 0 .undefined
  let a1 := args.getD 1 .undefined
  let a2 := args.getD 2 .undefined
  let a3 := args.getD 3 .undefined
  let handle := NValueToUInt64 A a0
  let key := NValueToString A false a1
  if handle ≠ 0 ∧ 0 < key.length then
    let value := NValueToUInt64 A a2
    if IsNValueUndefined a3 then
      let p := engineSet handle key (.tvUInt64 value) none s
      (BoolToNValue p.1, p.2)
    else
      let expiration := NValueToUInt32 A a3
      let p := engineSet handle key (.tvUInt64 value) (some expiration) s
      (BoolToNValue p.1, p.2)
  else
    (BoolToNValue false, s)

/-- `decodeUInt64`. -/
def decodeUInt64 : EntryFn := fun A args s =>
  let a0 := args.getD 0 .undefined
  let a1 := args.getD 1 .undefined
  let a2 := args.getD 2 .undefined
  let handle := NValueToUInt64 A a0
  let key := NValueToString A false a1
  let defaultValue := NValueToUInt64 A a2
  if handle ≠ 0 ∧ 0 < key.length then
    let p := engineGetUInt64 handle key defaultValue s
    (UInt64ToNValue p.1, p.2)
  else
    (UInt64ToNValue defaultValue, s)

/-- `encodeDouble`. -/
def encodeDouble : EntryFn := fun A args s =>
  let a0 := args.getD 0 .undefined
  let a1 := args.getD 1 .undefined
  let a2 := args.getD 2 .undefined
  let a3 := args.getD 3 .undefined
  let handle := NValueToUInt64 A a0
  let key := NValueToString A false a1
  if handle ≠ 0 ∧ 0 < key.length then
    let value := NValueToDouble A a2
    if IsNValueUndefined a3 then
      let p := engineSet handle key (.tvDouble value) none s
      (BoolToNValue p.1, p.2)
    else
      let expiration := NValueToUInt32 A a3
      let p := engineSet handle key (.tvDouble value) (some expiration) s
      (BoolToNValue p.1, p.2)
  else
    (BoolToNValue false, s)

/-- `decodeDouble`. -/
def decodeDouble : EntryFn := fun A args s =>
  let a0 := args.getD 0 .undefined
  let a1 := args.getD 1 .undefined
  let a2 := args.getD 2 .undefined
  let handle := NValueToUInt64 A a0
  let key := NValueToString A false a1
  let defaultValue := NValueToDouble A a2
  if handle ≠ 0 ∧ 0 < key.length then
    let p := engineGetDouble handle key defaultValue s
    (DoubleToNValue p.1, p.2)
  else
    (DoubleToNValue defaultValue, s)

/-- `encodeString`. -/
def encodeString : EntryFn := fun A args s =>
  let a0 := args.getD 0 .undefined
  let a1 := args.getD 1 .undefined
  let a2 := args.getD 2 .undefined
  let a3 := args.getD 3 .undefined
  let handle := NValueToUInt64 A a0
  let key := NValueToString A false a1
  if handle ≠ 0 ∧ 0 < key.length then
    let value := NValueToString A false a2
    if IsNValueUndefined a3 then
      let p := engineSet handle key (.tvString value) none s
      (BoolToNValue p.1, p.2)
    else
      let expiration := NValueToUInt32 A a3
      let p := engineSet handle key (.tvString value) (some expiration) s
      (BoolToNValue p.1, p.2)
  else
    (BoolToNValue false, s)

/-- `decodeString`: with a non-null handle and non-empty key, one engine
`getString`; its result (when found) is converted back with
`StringToNValue`, otherwise the third host argument is returned
unchanged.  With a failing guard the third argument is returned
unchanged and the engine is never called. -/
def decodeString : EntryFn := fun A args s =>
  let a0 := args.getD 0 .undefined
  let a1 := args.getD 1 .undefined
  let a2 := args.getD 2 .undefined
  let handle := NValueToUInt64 A a0
  let key := NValueToString A false a1
  if handle ≠ 0 ∧ 0 < key.length then
    let p := engineGetString handle key s
    match p.1 with
    | some result => (StringToNValue result, p.2)
    | none => (a2, p.2)
  else
    (a2, s)

/-- `encodeBytes`. -/
def encodeBytes : EntryFn := fun A args s =>
  let a0 := args.getD 0 .undefined
  let a1 := args.getD 1 .undefined
  let a2 := args.getD 2 .undefined
  let a3 := args.getD 3 .undefined
  let handle := NValueToUInt64 A a0
  let key := NValueToString A false a1
  if handle ≠ 0 ∧ 0 < key.length then
    let value := NValueToMMBuffer false a2
    if IsNValueUndefined a3 then
      let p := engineSet handle key (.tvBytes value) none s
      (BoolToNValue p.1, p.2)
    else
      let expiration := NValueToUInt32 A a3
      let p := engineSet handle key (.tvBytes value) (some expiration) s
      (BoolToNValue p.1, p.2)
  else
    (BoolToNValue false, s)

/-- `decodeBytes` (same shape as `decodeString`, engine `getBytes`). -/
def decodeBytes : EntryFn := fun A args s =>
  let a0 := args.getD 0 .undefined
  let a1 := args.getD 1 .undefined
  let a2 := args.getD 2 .undefined
  let handle := NValueToUInt64 A a0
  let key := NValueToString A false a1
  if handle ≠ 0 ∧ 0 < key.length then
    let p := engineGetBytes handle key s
    match p.1 with
    | some result => (MMBufferToNValue result, p.2)
    | none => (a2, p.2)
  else
    (a2, s)

/-- The `napi_property_descriptor desc[]` array of `Init`: each exported
name bound to its native entry point. -/
def mmkvDesc : List (String × EntryFn) :=
  [("initialize", initEntry),
   ("version", version),
   ("getDefaultMMKV", getDefaultMMKV),
   ("encodeBool", encodeBool),
   ("decodeBool", decodeBool),
   ("encodeInt32", encodeInt32),
   ("decodeInt32", decodeInt32),
   ("encodeUInt32", encodeUInt32),
   ("decodeUInt32", decodeUInt32),
   ("encodeInt64", encodeInt64),
   ("decodeInt64", decodeInt64),
   ("encodeUInt64", encodeUInt64),
   ("decodeUInt64", decodeUInt64),
   ("encodeDouble", encodeDouble),
   ("decodeDouble", decodeDouble),
   ("encodeString", encodeString),
   ("decodeString", decodeString),
   ("encodeBytes", encodeBytes),
   ("decodeBytes", decodeBytes)]

/-- `Init` (named `moduleInit` here to avoid shadowing Lean's `Init`
namespace): `napi_define_properties` adds the descriptor table to the
`exports` object, which is returned. -/
def moduleInit (exports : List (String × EntryFn)) : List (String × EntryFn) :=
  exports ++ mmkvDesc

/-- An OHOS `napi_module`. -/
structure NapiModule where
  nmVersion : Nat
  nmFlags : Nat
  nmModname : String
  nmRegisterFunc : List (String × EntryFn) → List (String × EntryFn)

/-- The static `mmkvModule` descriptor. -/
def mmkvModule : NapiModule :=
  { nmVersion := 1, nmFlags := 0, nmModname := "mmkv", nmRegisterFunc := moduleInit }

/-- `RegisterMMKVModule`, the library constructor: at module load it
calls `napi_module_register(&mmkvModule)`.  Modelled as the list of
modules registered with the host runtime. -/
def registeredModules : List NapiModule :=
  [mmkvModule]

/-- The optional expiration handed to the engine: absent exactly when the
fourth host argument is undefined, otherwise the uint32 conversion of it. -/
def expOf (A : Ambient) (a3 : NapiValue) : Option Nat :=
  if IsNValueUndefined a3 then none else some (NValueToUInt32 A a3)

/-- The handle denotes a live engine instance (a non-null `MMKV *`). -/
def refersToInstance (s : EngineState) (h : Nat) : Prop :=
  h ≠ 0 ∧ (lookupInst s h).isSome = true

theorem encodeBool_char (A : Ambient) (s : EngineState) (a0 a1 a2 a3 : NapiValue)
    (h : Nat) (h0 : toUInt64Opt a0 = some h) (hh : h ≠ 0)
    (hk : 0 < (NValueToString A false a1).length) :
    encodeBool A [a0, a1, a2, a3] s =
      (BoolToNValue (engineSet h (NValueToString A false a1)
          (TypedValue.tvBool (NValueToBool A a2)) (expOf A a3) s).1,
       (engineSet h (NValueToString A false a1)
          (TypedValue.tvBool (NValueToBool A a2)) (expOf A a3) s).2) := by
  have hH : NValueToUInt64 A a0 = h := by simp [NValueToUInt64, h0]
  unfold encodeBool
  simp only [List.getD_cons_zero, List.getD_cons_succ, hH]
  rw [if_pos ⟨hh, hk⟩]
  by_cases hu : IsNValueUndefined a3 <;> simp [expOf, hu]

theorem encodeBool_guardFail (A : Ambient) (s : EngineState) (a0 a1 a2 a3 : NapiValue)
    (hg : NValueToUInt64 A a0 = 0 ∨ NValueToString A false a1 = []) :
    encodeBool A [a0, a1, a2, a3] s = (BoolToNValue false, s) := by
  unfold encodeBool
  simp only [List.getD_cons_zero, List.getD_cons_succ]
  rw [if_neg]
  rintro ⟨h1, h2⟩
  rcases hg with hg | hg
  · exact h1 hg
  · rw [hg] at h2; simp at h2

theorem encodeInt32_char (A : Ambient) (s : EngineState) (a0 a1 a2 a3 : NapiValue)
    (h : Nat) (h0 : toUInt64Opt a0 = some h) (hh : h ≠ 0)
    (hk : 0 < (NValueToString A false a1).length) :
    encodeInt32 A [a0, a1, a2, a3] s =
      (BoolToNValue (engineSet h (NValueToString A false a1)
          (TypedValue.tvInt32 (NValueToInt32 A a2)) (expOf A a3) s).1,
       (engineSet h (NValueToString A false a1)
          (TypedValue.tvInt32 (NValueToInt32 A a2)) (expOf A a3) s).2) := by
  have hH : NValueToUInt64 A a0 = h := by simp [NValueToUInt64, h0]
  unfold encodeInt32
  simp only [List.getD_cons_zero, List.getD_cons_succ, hH]
  rw [if_pos ⟨hh, hk⟩]
  by_cases hu : IsNValueUndefined a3 <;> simp [expOf, hu]

theorem encodeInt32_guardFail (A : Ambient) (s : EngineState) (a0 a1 a2 a3 : NapiValue)
    (hg : NValueToUInt64 A a0 = 0 ∨ NValueToString A false a1 = []) :
    encodeInt32 A [a0, a1, a2, a3] s = (BoolToNValue false, s) := by
  unfold encodeInt32
  simp only [List.getD_cons_zero, List.getD_cons_succ]
  rw [if_neg]
  rintro ⟨h1, h2⟩
  rcases hg with hg | hg
  · exact h1 hg
  · rw [hg] at h2; simp at h2

theorem encodeUInt32_char (A : Ambient) (s : EngineState) (a0 a1 a2 a3 : NapiValue)
    (h : Nat) (h0 : toUInt64Opt a0 = some h) (hh : h ≠ 0)
    (hk : 0 < (NValueToString A false a1).length) :
    encodeUInt32 A [a0, a1, a2, a3] s =
      (BoolToNValue (engineSet h (NValueToString A false a1)
          (TypedValue.tvUInt32 (NValueToUInt32 A a2)) (expOf A a3) s).1,
       (engineSet h (NValueToString A false a1)
          (TypedValue.tvUInt32 (NValueToUInt32 A a2)) (expOf A a3) s).2) := by
  have hH : NValueToUInt64 A a0 = h := by simp [NValueToUInt64, h0]
  unfold encodeUInt32
  simp only [List.getD_cons_zero, List.getD_cons_succ, hH]
  rw [if_pos ⟨hh, hk⟩]
  by_cases hu : IsNValueUndefined a3 <;> simp [expOf, hu]

theorem encodeUInt32_guardFail (A : Ambient) (s : EngineState) (a0 a1 a2 a3 : NapiValue)
    (hg : NValueToUInt64 A a0 = 0 ∨ NValueToString A false a1 = []) :
    encodeUInt32 A [a0, a1, a2, a3] s = (BoolToNValue false, s) := by
  unfold encodeUInt32
  simp only [List.getD_cons_zero, List.getD_cons_succ]
  rw [if_neg]
  rintro ⟨h1, h2⟩
  rcases hg with hg | hg
  · exact h1 hg
  · rw [hg] at h2; simp at h2

theorem encodeInt64_char (A : Ambient) (s : EngineState) (a0 a1 a2 a3 : NapiValue)
    (h : Nat) (h0 : toUInt64Opt a0 = some h) (hh : h ≠ 0)
    (hk : 0 < (NValueToString A false a1).length) :
    encodeInt64 A [a0, a1, a2, a3] s =
      (BoolToNValue (engineSet h (NValueToString A false a1)
          (TypedValue.tvInt64 (NValueToInt64 A a2)) (expOf A a3) s).1,
       (engineSet h (NValueToString A false a1)
          (TypedValue.tvInt64 (NValueToInt64 A a2)) (expOf A a3) s).2) := by
  have hH : NValueToUInt64 A a0 = h := by simp [NValueToUInt64, h0]
  unfold encodeInt64
  simp only [List.getD_cons_zero, List.getD_cons_succ, hH]
  rw [if_pos ⟨hh, hk⟩]
  by_cases hu : IsNValueUndefined a3 <;> simp [expOf, hu]

theorem encodeInt64_guardFail (A : Ambient) (s : EngineState) (a0 a1 a2 a3 : NapiValue)
    (hg : NValueToUInt64 A a0 = 0 ∨ NValueToString A false a1 = []) :
    encodeInt64 A [a0, a1, a2, a3] s = (BoolToNValue false, s) := by
  unfold encodeInt64
  simp only [List.getD_cons_zero, List.getD_cons_succ]
  rw [if_neg]
  rintro ⟨h1, h2⟩
  rcases hg with hg | hg
  · exact h1 hg
  · rw [hg] at h2; simp at h2

theorem encodeUInt64_char (A : Ambient) (s : EngineState) (a0 a1 a2 a3 : NapiValue)
    (h : Nat) (h0 : toUInt64Opt a0 = some h) (hh : h ≠ 0)
    (hk : 0 < (NValueToString A false a1).length) :
    encodeUInt64 A [a0, a1, a2, a3] s =
      (BoolToNValue (engineSet h (NValueToString A false a1)
          (TypedValue.tvUInt64 (NValueToUInt64 A a2)) (expOf A a3) s).1,
       (engineSet h (NValueToString A false a1)
          (TypedValue.tvUInt64 (NValueToUInt64 A a2)) (expOf A a3) s).2) := by
  have hH : NValueToUInt64 A a0 = h := by simp [NValueToUInt64, h0]
  unfold encodeUInt64
  simp only [List.getD_cons_zero, List.getD_cons_succ, hH]
  rw [if_pos ⟨hh, hk⟩]
  by_cases hu : IsNValueUndefined a3 <;> simp [expOf, hu]

theorem encodeUInt64_guardFail (A : Ambient) (s : EngineState) (a0 a1 a2 a3 : NapiValue)
    (hg : NValueToUInt64 A a0 = 0 ∨ NValueToString A false a1 = []) :
    encodeUInt64 A [a0, a1, a2, a3] s = (BoolToNValue false, s) := by
  unfold encodeUInt64
  simp only [List.getD_cons_zero, List.getD_cons_succ]
  rw [if_neg]
  rintro ⟨h1, h2⟩
  rcases hg with hg | hg
  · exact h1 hg
  · rw [hg] at h2; simp at h2

theorem encodeDouble_char (A : Ambient) (s : EngineState) (a0 a1 a2 a3 : NapiValue)
    (h : Nat) (h0 : toUInt64Opt a0 = some h) (hh : h ≠ 0)
    (hk : 0 < (NValueToString A false a1).length) :
    encodeDouble A [a0, a1, a2, a3] s =
      (BoolToNValue (engineSet h (NValueToString A false a1)
          (TypedValue.tvDouble (NValueToDouble A a2)) (expOf A a3) s).1,
       (engineSet h (NValueToString A false a1)
          (TypedValue.tvDouble (NValueToDouble A a2)) (expOf A a3) s).2) := by
  have hH : NValueToUInt64 A a0 = h := by simp [NValueToUInt64, h0]
  unfold encodeDouble
  simp only [List.getD_cons_zero, List.getD_cons_succ, hH]
  rw [if_pos ⟨hh, hk⟩]
  by_cases hu : IsNValueUndefined a3 <;> simp [expOf, hu]

theorem encodeDouble_guardFail (A : Ambient) (s : EngineState) (a0 a1 a2 a3 : NapiValue)
    (hg : NValueToUInt64 A a0 = 0 ∨ NValueToString A false a1 = []) :
    encodeDouble A [a0, a1, a2, a3] s = (BoolToNValue false, s) := by
  unfold encodeDouble
  simp only [List.getD_cons_zero, List.getD_cons_succ]
  rw [if_neg]
  rintro ⟨h1, h2⟩
  rcases hg with hg | hg
  · exact h1 hg
  · rw [hg] at h2; simp at h2

theorem encodeString_char (A : Ambient) (s : EngineState) (a0 a1 a2 a3 : NapiValue)
    (h : Nat) (h0 : toUInt64Opt a0 = some h) (hh : h ≠ 0)
    (hk : 0 < (NValueToString A false a1).length) :
    encodeString A [a0, a1, a2, a3] s =
      (BoolToNValue (engineSet h (NValueToString A false a1)
          (TypedValue.tvString (NValueToString A false a2)) (expOf A a3) s).1,
       (engineSet h (NValueToString A false a1)
          (TypedValue.tvString (NValueToString A false a2)) (expOf A a3) s).2) := by
  have hH : NValueToUInt64 A a0 = h := by simp [NValueToUInt64, h0]
  unfold encodeString
  simp only [List.getD_cons_zero, List.getD_cons_succ, hH]
  rw [if_pos ⟨hh, hk⟩]
  by_cases hu : IsNValueUndefined a3 <;> simp [expOf, hu]

theorem encodeString_guardFail (A : Ambient) (s : EngineState) (a0 a1 a2 a3 : NapiValue)
    (hg : NValueToUInt64 A a0 = 0 ∨ NValueToString A false a1 = []) :
    encodeString A [a0, a1, a2, a3] s = (BoolToNValue false, s) := by
  unfold encodeString
  simp only [List.getD_cons_zero, List.getD_cons_succ]
  rw [if_neg]
  rintro ⟨h1, h2⟩
  rcases hg with hg | hg
  · exact h1 hg
  · rw [hg] at h2; simp at h2

theorem encodeBytes_char (A : Ambient) (s : EngineState) (a0 a1 a2 a3 : NapiValue)
    (h : Nat) (h0 : toUInt64Opt a0 = some h) (hh : h ≠ 0)
    (hk : 0 < (NValueToString A false a1).length) :
    encodeBytes A [a0, a1, a2, a3] s =
      (BoolToNValue (engineSet h (NValueToString A false a1)
          (TypedValue.tvBytes (NValueToMMBuffer false a2)) (expOf A a3) s).1,
       (engineSet h (NValueToString A false a1)
          (TypedValue.tvBytes (NValueToMMBuffer false a2)) (expOf A a3) s).2) := by
  have hH : NValueToUInt64 A a0 = h := by simp [NValueToUInt64, h0]
  unfold encodeBytes
  simp only [List.getD_cons_zero, List.getD_cons_succ, hH]
  rw [if_pos ⟨hh, hk⟩]
  by_cases hu : IsNValueUndefined a3 <;> simp [expOf, hu]

theorem encodeBytes_guardFail (A : Ambient) (s : EngineState) (a0 a1 a2 a3 : NapiValue)
    (hg : NValueToUInt64 A a0 = 0 ∨ NValueToString A false a1 = []) :
    encodeBytes A [a0, a1, a2, a3] s = (BoolToNValue false, s) := by
  unfold encodeBytes
  simp only [List.getD_cons_zero, List.getD_cons_succ]
  rw [if_neg]
  rintro ⟨h1, h2⟩
  rcases hg with hg | hg
  · exact h1 hg
  · rw [hg] at h2; simp at h2

theorem decodeBool_char (A : Ambient) (s : EngineState) (a0 a1 a2 : NapiValue)
    (h : Nat) (h0 : toUInt64Opt a0 = some h) (hh : h ≠ 0)
    (hk : 0 < (NValueToString A false a1).length) :
    decodeBool A [a0, a1, a2] s =
      (BoolToNValue (engineGetBool h (NValueToString A false a1) (NValueToBool A a2) s).1,
       (engineGetBool h (NValueToString A false a1) (NValueToBool A a2) s).2) := by
  have hH : NValueToUInt64 A a0 = h := by simp [NValueToUInt64, h0]
  unfold decodeBool
  simp only [List.getD_cons_zero, List.getD_cons_succ, hH]
  rw [if_pos ⟨hh, hk⟩]

theorem decodeBool_guardFail (A : Ambient) (s : EngineState) (a0 a1 a2 : NapiValue)
    (hg : NValueToUInt64 A a0 = 0 ∨ NValueToString A false a1 = []) :
    decodeBool A [a0, a1, a2] s = (BoolToNValue (NValueToBool A a2), s) := by
  unfold decodeBool
  simp only [List.getD_cons_zero, List.getD_cons_succ]
  rw [if_neg]
  rintro ⟨h1, h2⟩
  rcases hg with hg | hg
  · exact h1 hg
  · rw [hg] at h2; simp at h2

theorem decodeInt32_char (A : Ambient) (s : EngineState) (a0 a1 a2 : NapiValue)
    (h : Nat) (h0 : toUInt64Opt a0 = some h) (hh : h ≠ 0)
    (hk : 0 < (NValueToString A false a1).length) :
    decodeInt32 A [a0, a1, a2] s =
      (Int32ToNValue (engineGetInt32 h (NValueToString A false a1) (NValueToInt32 A a2) s).1,
       (engineGetInt32 h (NValueToString A false a1) (NValueToInt32 A a2) s).2) := by
  have hH : NValueToUInt64 A a0 = h := by simp [NValueToUInt64, h0]
  unfold decodeInt32
  simp only [List.getD_cons_zero, List.getD_cons_succ, hH]
  rw [if_pos ⟨hh, hk⟩]

theorem decodeInt32_guardFail (A : Ambient) (s : EngineState) (a0 a1 a2 : NapiValue)
    (hg : NValueToUInt64 A a0 = 0 ∨ NValueToString A false a1 = []) :
    decodeInt32 A [a0, a1, a2] s = (Int32ToNValue (NValueToInt32 A a2), s) := by
  unfold decodeInt32
  simp only [List.getD_cons_zero, List.getD_cons_succ]
  rw [if_neg]
  rintro ⟨h1, h2⟩
  rcases hg with hg | hg
  · exact h1 hg
  · rw [hg] at h2; simp at h2

theorem decodeUInt32_char (A : Ambient) (s : EngineState) (a0 a1 a2 : NapiValue)
    (h : Nat) (h0 : toUInt64Opt a0 = some h) (hh : h ≠ 0)
    (hk : 0 < (NValueToString A false a1).length) :
    decodeUInt32 A [a0, a1, a2] s =
      (UInt32ToNValue (engineGetUInt32 h (NValueToString A false a1) (NValueToUInt32 A a2) s).1,
       (engineGetUInt32 h (NValueToString A false a1) (NValueToUInt32 A a2) s).2) := by
  have hH : NValueToUInt64 A a0 = h := by simp [NValueToUInt64, h0]
  unfold decodeUInt32
  simp only [List.getD_cons_zero, List.getD_cons_succ, hH]
  rw [if_pos ⟨hh, hk⟩]

theorem decodeUInt32_guardFail (A : Ambient) (s : EngineState) (a0 a1 a2 : NapiValue)
    (hg : NValueToUInt64 A a0 = 0 ∨ NValueToString A false a1 = []) :
    decodeUInt32 A [a0, a1, a2] s = (UInt32ToNValue (NValueToUInt32 A a2), s) := by
  unfold decodeUInt32
  simp only [List.getD_cons_zero, List.getD_cons_succ]
  rw [if_neg]
  rintro ⟨h1, h2⟩
  rcases hg with hg | hg
  · exact h1 hg
  · rw [hg] at h2; simp at h2

theorem decodeInt64_char (A : Ambient) (s : EngineState) (a0 a1 a2 : NapiValue)
    (h : Nat) (h0 : toUInt64Opt a0 = some h) (hh : h ≠ 0)
    (hk : 0 < (NValueToString A false a1).length) :
    decodeInt64 A [a0, a1, a2] s =
      (Int64ToNValue (engineGetInt64 h (NValueToString A false a1) (NValueToInt64 A a2) s).1,
       (engineGetInt64 h (NValueToString A false a1) (NValueToInt64 A a2) s).2) := by
  have hH : NValueToUInt64 A a0 = h := by simp [NValueToUInt64, h0]
  unfold decodeInt64
  simp only [List.getD_cons_zero, List.getD_cons_succ, hH]
  rw [if_pos ⟨hh, hk⟩]

theorem decodeInt64_guardFail (A : Ambient) (s : EngineState) (a0 a1 a2 : NapiValue)
    (hg : NValueToUInt64 A a0 = 0 ∨ NValueToString A false a1 = []) :
    decodeInt64 A [a0, a1, a2] s = (Int64ToNValue (NValueToInt64 A a2), s) := by
  unfold decodeInt64
  simp only [List.getD_cons_zero, List.getD_cons_succ]
  rw [if_neg]
  rintro ⟨h1, h2⟩
  rcases hg with hg | hg
  · exact h1 hg
  · rw [hg] at h2; simp at h2

theorem decodeUInt64_char (A : Ambient) (s : EngineState) (a0 a1 a2 : NapiValue)
    (h : Nat) (h0 : toUInt64Opt a0 = some h) (hh : h ≠ 0)
    (hk : 0 < (NValueToString A false a1).length) :
    decodeUInt64 A [a0, a1, a2] s =
      (UInt64ToNValue (engineGetUInt64 h (NValueToString A false a1) (NValueToUInt64 A a2) s).1,
       (engineGetUInt64 h (NValueToString A false a1) (NValueToUInt64 A a2) s).2) := by
  have hH : NValueToUInt64 A a0 = h := by simp [NValueToUInt64, h0]
  unfold decodeUInt64
  simp only [List.getD_cons_zero, List.getD_cons_succ, hH]
  rw [if_pos ⟨hh, hk⟩]

theorem decodeUInt64_guardFail (A : Ambient) (s : EngineState) (a0 a1 a2 : NapiValue)
    (hg : NValueToUInt64 A a0 = 0 ∨ NValueToString A false a1 = []) :
    decodeUInt64 A [a0, a1, a2] s = (UInt64ToNValue (NValueToUInt64 A a2), s) := by
  unfold decodeUInt64
  simp only [List.getD_cons_zero, List.getD_cons_succ]
  rw [if_neg]
  rintro ⟨h1, h2⟩
  rcases hg with hg | hg
  · exact h1 hg
  · rw [hg] at h2; simp at h2

theorem decodeDouble_char (A : Ambient) (s : EngineState) (a0 a1 a2 : NapiValue)
    (h : Nat) (h0 : toUInt64Opt a0 = some h) (hh : h ≠ 0)
    (hk : 0 < (NValueToString A false a1).length) :
    decodeDouble A [a0, a1, a2] s =
      (DoubleToNValue (engineGetDouble h (NValueToString A false a1) (NValueToDouble A a2) s).1,
       (engineGetDouble h (NValueToString A false a1) (NValueToDouble A a2) s).2) := by
  have hH : NValueToUInt64 A a0 = h := by simp [NValueToUInt64, h0]
  unfold decodeDouble
  simp only [List.getD_cons_zero, List.getD_cons_succ, hH]
  rw [if_pos ⟨hh, hk⟩]

theorem decodeDouble_guardFail (A : Ambient) (s : EngineState) (a0 a1 a2 : NapiValue)
    (hg : NValueToUInt64 A a0 = 0 ∨ NValueToString A false a1 = []) :
    decodeDouble A [a0, a1, a2] s = (DoubleToNValue (NValueToDouble A a2), s) := by
  unfold decodeDouble
  simp only [List.getD_cons_zero, List.getD_cons_succ]
  rw [if_neg]
  rintro ⟨h1, h2⟩
  rcases hg with hg | hg
  · exact h1 hg
  · rw [hg] at h2; simp at h2

theorem decodeString_char (A : Ambient) (s : EngineState) (a0 a1 a2 : NapiValue)
    (h : Nat) (h0 : toUInt64Opt a0 = some h) (hh : h ≠ 0)
    (hk : 0 < (NValueToString A false a1).length) :
    decodeString A [a0, a1, a2] s =
      ((engineGetString h (NValueToString A false a1) s).1.elim a2 StringToNValue,
       (engineGetString h (NValueToString A false a1) s).2) := by
  have hH : NValueToUInt64 A a0 = h := by simp [NValueToUInt64, h0]
  unfold decodeString
  simp only [List.getD_cons_zero, List.getD_cons_succ, hH]
  rw [if_pos ⟨hh, hk⟩]
  rcases (engineGetString h (NValueToString A false a1) s).1 with _ | r <;> simp

theorem decodeString_guardFail (A : Ambient) (s : EngineState) (a0 a1 a2 : NapiValue)
    (hg : NValueToUInt64 A a0 = 0 ∨ NValueToString A false a1 = []) :
    decodeString A [a0, a1, a2] s = (a2, s) := by
  unfold decodeString
  simp only [List.getD_cons_zero, List.getD_cons_succ]
  rw [if_neg]
  rintro ⟨h1, h2⟩
  rcases hg with hg | hg
  · exact h1 hg
  · rw [hg] at h2; simp at h2

theorem decodeBytes_char (A : Ambient) (s : EngineState) (a0 a1 a2 : NapiValue)
    (h : Nat) (h0 : toUInt64Opt a0 = some h) (hh : h ≠ 0)
    (hk : 0 < (NValueToString A false a1).length) :
    decodeBytes A [a0, a1, a2] s =
      ((engineGetBytes h (NValueToString A false a1) s).1.elim a2 MMBufferToNValue,
       (engineGetBytes h (NValueToString A false a1) s).2) := by
  have hH : NValueToUInt64 A a0 = h := by simp [NValueToUInt64, h0]
  unfold decodeBytes
  simp only [List.getD_cons_zero, List.getD_cons_succ, hH]
  rw [if_pos ⟨hh, hk⟩]
  rcases (engineGetBytes h (NValueToString A false a1) s).1 with _ | r <;> simp

theorem decodeBytes_guardFail (A : Ambient) (s : EngineState) (a0 a1 a2 : NapiValue)
    (hg : NValueToUInt64 A a0 = 0 ∨ NValueToString A false a1 = []) :
    decodeBytes A [a0, a1, a2] s = (a2, s) := by
  unfold decodeBytes
  simp only [List.getD_cons_zero, List.getD_cons_succ]
  rw [if_neg]
  rintro ⟨h1, h2⟩
  rcases hg with hg | hg
  · exact h1 hg
  · rw [hg] at h2; simp at h2

theorem F64.trunc_ofInt (n : Int) : (F64.ofInt n).trunc = n := by
  unfold F64.ofInt F64.trunc
  simp only [decide_eq_true_eq, Int.floor_natCast]
  split <;> omega

theorem F64.toInt32_ofInt (n : Int) (h1 : -2147483648 ≤ n) (h2 : n < 2147483648) :
    (F64.ofInt n).toInt32 = n := by
  unfold F64.toInt32
  rw [F64.trunc_ofInt]
  split <;> omega

theorem F64.toUInt32_ofInt (n : Nat) (h : n < 4294967296) :
    (F64.ofInt n).toUInt32 = n := by
  unfold F64.toUInt32
  rw [F64.trunc_ofInt]
  omega

/-- Fixed concrete capacity policy: every resize leaves one spare byte
(a conforming, truncation-free `std::string` behavior). -/
def capPlus (n : Nat) : Nat := n + 1

/-- The libc++ 64-bit `std::string` capacity policy (`__recommend`):
short-string capacity 22, otherwise `n + 1` rounded up to a multiple of
16, minus one — so `capacity () = size ()` exactly when `n = 22` or
`n % 16 = 15` with `n > 22`. -/
def libcxxCap (n : Nat) : Nat :=
  if n ≤ 22 then 22 else ((n + 16) / 16) * 16 - 1

/-- Ambient context with the spare-byte capacity policy and arbitrary
fixed junk. -/
def ambDflt : Ambient :=
  { cap := capPlus, jkBool := false, jkI32 := 0, jkU32 := 0,
    jkI64 := 0, jkU64 := 0, jkF64 := F64.nan }

/-- Same capacity policy as `ambDflt`, different junk (a different
uninitialized-stack scenario). -/
def ambJunk : Ambient :=
  { cap := capPlus, jkBool := true, jkI32 := 1, jkU32 := 1,
    jkI64 := 1, jkU64 := 1, jkF64 := F64.inf false }

/-- Ambient context with the libc++ capacity policy. -/
def ambLibcxx : Ambient :=
  { cap := libcxxCap, jkBool := false, jkI32 := 0, jkU32 := 0,
    jkI64 := 0, jkU64 := 0, jkF64 := F64.nan }

/-- Concrete engine state: one live instance with handle 5 and an empty
store; a successful encrypted open would yield handle 7, a plain open
handle 9. -/
def st0 : EngineState :=
  { instances := [(5, [])], trace := [], rootDir := [], tmpDir := [],
    logLevel := 0, encHandle := 7, defHandle := 9 }

/-- C2: converting a bool, int32, uint32, int64, uint64 or double with
the matching native-to-host function and back with the matching
host-to-native function returns the original value (int ranges are the
ranges of the C argument types). -/
theorem claim2_scalar_roundtrips (A : Ambient) :
    (∀ b : Bool, NValueToBool A (BoolToNValue b) = b) ∧
    (∀ n : Int, -2147483648 ≤ n → n < 2147483648 →
      NValueToInt32 A (Int32ToNValue n) = n) ∧
    (∀ n : Nat, n < 4294967296 →
      NValueToUInt32 A (UInt32ToNValue n) = n) ∧
    (∀ n : Int, -9223372036854775808 ≤ n → n < 9223372036854775808 →
      NValueToInt64 A (Int64ToNValue n) = n) ∧
    (∀ n : Nat, n < 18446744073709551616 →
      NValueToUInt64 A (UInt64ToNValue n) = n) ∧
    (∀ d : F64, NValueToDouble A (DoubleToNValue d) = d) := by
  refine ⟨?_, ?_, ?_, ?_, ?_, ?_⟩
  · intro b
    cases b <;> simp [NValueToBool, BoolToNValue, jsToBoolean, toBoolOpt, F64.ofInt, F64.toBool]
  · intro n h1 h2
    simp [NValueToInt32, Int32ToNValue, toInt32Opt, F64.toInt32_ofInt n h1 h2]
  · intro n h
    simp [NValueToUInt32, UInt32ToNValue, toUInt32Opt, F64.toUInt32_ofInt n h]
  · intro n h1 h2
    simp only [NValueToInt64, Int64ToNValue, toInt64Opt, Option.getD_some]
    omega
  · intro n h
    simp only [NValueToUInt64, UInt64ToNValue, toUInt64Opt, Option.getD_some]
    omega
  · intro d
    simp [NValueToDouble, DoubleToNValue, toDoubleOpt]

/-- C2 witness: the round trips at concrete values. -/
theorem claim2_scalar_roundtrips_witness :
    NValueToBool ambDflt (BoolToNValue true) = true ∧
    NValueToInt32 ambDflt (Int32ToNValue (-5)) = -5 ∧
    NValueToUInt32 ambDflt (UInt32ToNValue 4294967295) = 4294967295 ∧
    NValueToInt64 ambDflt (Int64ToNValue (-9223372036854775808)) = -9223372036854775808 ∧
    NValueToUInt64 ambDflt (UInt64ToNValue 18446744073709551615) = 18446744073709551615 ∧
    NValueToDouble ambDflt (DoubleToNValue (.finite true 0)) = .finite true 0 :=
  ⟨(claim2_scalar_roundtrips ambDflt).1 true,
   (claim2_scalar_roundtrips ambDflt).2.1 (-5) (by decide) (by decide),
   (claim2_scalar_roundtrips ambDflt).2.2.1 4294967295 (by decide),
   (claim2_scalar_roundtrips ambDflt).2.2.2.1 (-9223372036854775808) (by decide) (by decide),
   (claim2_scalar_roundtrips ambDflt).2.2.2.2.1 18446744073709551615 (by decide),
   (claim2_scalar_roundtrips ambDflt).2.2.2.2.2 (.finite true 0)⟩

/-- C3 (code bug): under libc++'s capacity policy a 22-byte string has
`capacity () = size ()` after `resize`, and `NValueToString` passes
`capacity ()` as the NAPI buffer size, of which NAPI uses at most
`bufsize - 1` bytes before NUL-terminating — so the round trip replaces
the final byte of a 22-byte string with NUL instead of returning the
string unchanged. -/
theorem claim3_roundtrip_truncates :
    NValueToString ambLibcxx false (StringToNValue (List.replicate 22 97))
        = List.replicate 21 97 ++ [0] ∧
    NValueToString ambLibcxx false (StringToNValue (List.replicate 22 97))
        ≠ List.replicate 22 97 := by
  constructor <;> decide

/-- C4: a native byte buffer converted to a host ArrayBuffer with
`MMBufferToNValue` and back with `NValueToMMBuffer` keeps its length and
its bytes. -/
theorem claim4_buffer_roundtrip (b : ByteStr) :
    NValueToMMBuffer false (MMBufferToNValue b) = b ∧
    (NValueToMMBuffer false (MMBufferToNValue b)).length = b.length := by
  exact ⟨rfl, rfl⟩

/-- C5: the library constructor registers the `mmkv` module whose
registration function adds to `exports` exactly the nineteen-entry
dispatch table, one entry per exported name, each bound to its native
entry point. -/
theorem claim5_dispatch_table :
    registeredModules = [mmkvModule] ∧
    mmkvModule.nmRegisterFunc = moduleInit ∧
    moduleInit [] = mmkvDesc ∧
    mmkvDesc.length = 19 ∧
    mmkvDesc.map Prod.fst =
      ["initialize", "version", "getDefaultMMKV",
       "encodeBool", "decodeBool", "encodeInt32", "decodeInt32",
       "encodeUInt32", "decodeUInt32", "encodeInt64", "decodeInt64",
       "encodeUInt64", "decodeUInt64", "encodeDouble", "decodeDouble",
       "encodeString", "decodeString", "encodeBytes", "decodeBytes"] ∧
    mmkvDesc =
      [("initialize", initEntry), ("version", version),
       ("getDefaultMMKV", getDefaultMMKV),
       ("encodeBool", encodeBool), ("decodeBool", decodeBool),
       ("encodeInt32", encodeInt32), ("decodeInt32", decodeInt32),
       ("encodeUInt32", encodeUInt32), ("decodeUInt32", decodeUInt32),
       ("encodeInt64", encodeInt64), ("decodeInt64", decodeInt64),
       ("encodeUInt64", encodeUInt64), ("decodeUInt64", decodeUInt64),
       ("encodeDouble", encodeDouble), ("decodeDouble", decodeDouble),
       ("encodeString", encodeString), ("decodeString", decodeString),
       ("encodeBytes", encodeBytes), ("decodeBytes", decodeBytes)] := by
  exact ⟨rfl, rfl, by simp [moduleInit], rfl, rfl, rfl⟩

/-- C1: for every exported encode and decode function, with a handle that
refers to an engine instance and a non-empty key, the resulting engine
state is exactly the one produced by the single corresponding wrapped
engine operation, and the operation trace grows by exactly that one
`set` (resp. `get`) for that key — the adapter changes no store state
other than through that engine call. -/
theorem claim1_frame (A : Ambient) (s : EngineState) (a0 a1 : NapiValue) (h : Nat)
    (h0 : toUInt64Opt a0 = some h) (hv : refersToInstance s h)
    (hk : 0 < (NValueToString A false a1).length) :
    (∀ a2 a3, (encodeBool A [a0, a1, a2, a3] s).2 =
        (engineSet h (NValueToString A false a1) (TypedValue.tvBool (NValueToBool A a2)) (expOf A a3) s).2 ∧
      (encodeBool A [a0, a1, a2, a3] s).2.trace =
        s.trace ++ [.setOp h (NValueToString A false a1) (TypedValue.tvBool (NValueToBool A a2)) (expOf A a3)]) ∧
    (∀ a2 a3, (encodeInt32 A [a0, a1, a2, a3] s).2 =
        (engineSet h (NValueToString A false a1) (TypedValue.tvInt32 (NValueToInt32 A a2)) (expOf A a3) s).2 ∧
      (encodeInt32 A [a0, a1, a2, a3] s).2.trace =
        s.trace ++ [.setOp h (NValueToString A false a1) (TypedValue.tvInt32 (NValueToInt32 A a2)) (expOf A a3)]) ∧
    (∀ a2 a3, (encodeUInt32 A [a0, a1, a2, a3] s).2 =
        (engineSet h (NValueToString A false a1) (TypedValue.tvUInt32 (NValueToUInt32 A a2)) (expOf A a3) s).2 ∧
      (encodeUInt32 A [a0, a1, a2, a3] s).2.trace =
        s.trace ++ [.setOp h (NValueToString A false a1) (TypedValue.tvUInt32 (NValueToUInt32 A a2)) (expOf A a3)]) ∧
    (∀ a2 a3, (encodeInt64 A [a0, a1, a2, a3] s).2 =
        (engineSet h (NValueToString A false a1) (TypedValue.tvInt64 (NValueToInt64 A a2)) (expOf A a3) s).2 ∧
      (encodeInt64 A [a0, a1, a2, a3] s).2.trace =
        s.trace ++ [.setOp h (NValueToString A false a1) (TypedValue.tvInt64 (NValueToInt64 A a2)) (expOf A a3)]) ∧
    (∀ a2 a3, (encodeUInt64 A [a0, a1, a2, a3] s).2 =
        (engineSet h (NValueToString A false a1) (TypedValue.tvUInt64 (NValueToUInt64 A a2)) (expOf A a3) s).2 ∧
      (encodeUInt64 A [a0, a1, a2, a3] s).2.trace =
        s.trace ++ [.setOp h (NValueToString A false a1) (TypedValue.tvUInt64 (NValueToUInt64 A a2)) (expOf A a3)]) ∧
    (∀ a2 a3, (encodeDouble A [a0, a1, a2, a3] s).2 =
        (engineSet h (NValueToString A false a1) (TypedValue.tvDouble (NValueToDouble A a2)) (expOf A a3) s).2 ∧
      (encodeDouble A [a0, a1, a2, a3] s).2.trace =
        s.trace ++ [.setOp h (NValueToString A false a1) (TypedValue.tvDouble (NValueToDouble A a2)) (expOf A a3)]) ∧
    (∀ a2 a3, (encodeString A [a0, a1, a2, a3] s).2 =
        (engineSet h (NValueToString A false a1) (TypedValue.tvString (NValueToString A false a2)) (expOf A a3) s).2 ∧
      (encodeString A [a0, a1, a2, a3] s).2.trace =
        s.trace ++ [.setOp h (NValueToString A false a1) (TypedValue.tvString (NValueToString A false a2)) (expOf A a3)]) ∧
    (∀ a2 a3, (encodeBytes A [a0, a1, a2, a3] s).2 =
        (engineSet h (NValueToString A false a1) (TypedValue.tvBytes (NValueToMMBuffer false a2)) (expOf A a3) s).2 ∧
      (encodeBytes A [a0, a1, a2, a3] s).2.trace =
        s.trace ++ [.setOp h (NValueToString A false a1) (TypedValue.tvBytes (NValueToMMBuffer false a2)) (expOf A a3)]) ∧
    (∀ a2, (decodeBool A [a0, a1, a2] s).2 =
        (engineGetBool h (NValueToString A false a1) (NValueToBool A a2) s).2 ∧
      (decodeBool A [a0, a1, a2] s).2.instances = s.instances ∧
      (decodeBool A [a0, a1, a2] s).2.trace =
        s.trace ++ [.getOp h (NValueToString A false a1) (some (TypedValue.tvBool (NValueToBool A a2)))]) ∧
    (∀ a2, (decodeInt32 A [a0, a1, a2] s).2 =
        (engineGetInt32 h (NValueToString A false a1) (NValueToInt32 A a2) s).2 ∧
      (decodeInt32 A [a0, a1, a2] s).2.instances = s.instances ∧
      (decodeInt32 A [a0, a1, a2] s).2.trace =
        s.trace ++ [.getOp h (NValueToString A false a1) (some (TypedValue.tvInt32 (NValueToInt32 A a2)))]) ∧
    (∀ a2, (decodeUInt32 A [a0, a1, a2] s).2 =
        (engineGetUInt32 h (NValueToString A false a1) (NValueToUInt32 A a2) s).2 ∧
      (decodeUInt32 A [a0, a1, a2] s).2.instances = s.instances ∧
      (decodeUInt32 A [a0, a1, a2] s).2.trace =
        s.trace ++ [.getOp h (NValueToString A false a1) (some (TypedValue.tvUInt32 (NValueToUInt32 A a2)))]) ∧
    (∀ a2, (decodeInt64 A [a0, a1, a2] s).2 =
        (engineGetInt64 h (NValueToString A false a1) (NValueToInt64 A a2) s).2 ∧
      (decodeInt64 A [a0, a1, a2] s).2.instances = s.instances ∧
      (decodeInt64 A [a0, a1, a2] s).2.trace =
        s.trace ++ [.getOp h (NValueToString A false a1) (some (TypedValue.tvInt64 (NValueToInt64 A a2)))]) ∧
    (∀ a2, (decodeUInt64 A [a0, a1, a2] s).2 =
        (engineGetUInt64 h (NValueToString A false a1) (NValueToUInt64 A a2) s).2 ∧
      (decodeUInt64 A [a0, a1, a2] s).2.instances = s.instances ∧
      (decodeUInt64 A [a0, a1, a2] s).2.trace =
        s.trace ++ [.getOp h (NValueToString A false a1) (some (TypedValue.tvUInt64 (NValueToUInt64 A a2)))]) ∧
    (∀ a2, (decodeDouble A [a0, a1, a2] s).2 =
        (engineGetDouble h (NValueToString A false a1) (NValueToDouble A a2) s).2 ∧
      (decodeDouble A [a0, a1, a2] s).2.instances = s.instances ∧
      (decodeDouble A [a0, a1, a2] s).2.trace =
        s.trace ++ [.getOp h (NValueToString A false a1) (some (TypedValue.tvDouble (NValueToDouble A a2)))]) ∧
    (∀ a2, (decodeString A [a0, a1, a2] s).2 =
        (engineGetString h (NValueToString A false a1) s).2 ∧
      (decodeString A [a0, a1, a2] s).2.instances = s.instances ∧
      (decodeString A [a0, a1, a2] s).2.trace =
        s.trace ++ [.getOp h (NValueToString A false a1) none]) ∧
    (∀ a2, (decodeBytes A [a0, a1, a2] s).2 =
        (engineGetBytes h (NValueToString A false a1) s).2 ∧
      (decodeBytes A [a0, a1, a2] s).2.instances = s.instances ∧
      (decodeBytes A [a0, a1, a2] s).2.trace =
        s.trace ++ [.getOp h (NValueToString A false a1) none]) := by
  obtain ⟨hh, -⟩ := hv
  refine ⟨?_, ?_, ?_, ?_, ?_, ?_, ?_, ?_, ?_, ?_, ?_, ?_, ?_, ?_, ?_, ?_⟩
  · intro a2 a3
    rw [encodeBool_char A s a0 a1 a2 a3 h h0 hh hk]
    exact ⟨rfl, by simp [engineSet]⟩
  · intro a2 a3
    rw [encodeInt32_char A s a0 a1 a2 a3 h h0 hh hk]
    exact ⟨rfl, by simp [engineSet]⟩
  · intro a2 a3
    rw [encodeUInt32_char A s a0 a1 a2 a3 h h0 hh hk]
    exact ⟨rfl, by simp [engineSet]⟩
  · intro a2 a3
    rw [encodeInt64_char A s a0 a1 a2 a3 h h0 hh hk]
    exact ⟨rfl, by simp [engineSet]⟩
  · intro a2 a3
    rw [encodeUInt64_char A s a0 a1 a2 a3 h h0 hh hk]
    exact ⟨rfl, by simp [engineSet]⟩
  · intro a2 a3
    rw [encodeDouble_char A s a0 a1 a2 a3 h h0 hh hk]
    exact ⟨rfl, by simp [engineSet]⟩
  · intro a2 a3
    rw [encodeString_char A s a0 a1 a2 a3 h h0 hh hk]
    exact ⟨rfl, by simp [engineSet]⟩
  · intro a2 a3
    rw [encodeBytes_char A s a0 a1 a2 a3 h h0 hh hk]
    exact ⟨rfl, by simp [engineSet]⟩
  · intro a2
    rw [decodeBool_char A s a0 a1 a2 h h0 hh hk]
    exact ⟨rfl, by simp [engineGetBool], by simp [engineGetBool]⟩
  · intro a2
    rw [decodeInt32_char A s a0 a1 a2 h h0 hh hk]
    exact ⟨rfl, by simp [engineGetInt32], by simp [engineGetInt32]⟩
  · intro a2
    rw [decodeUInt32_char A s a0 a1 a2 h h0 hh hk]
    exact ⟨rfl, by simp [engineGetUInt32], by simp [engineGetUInt32]⟩
  · intro a2
    rw [decodeInt64_char A s a0 a1 a2 h h0 hh hk]
    exact ⟨rfl, by simp [engineGetInt64], by simp [engineGetInt64]⟩
  · intro a2
    rw [decodeUInt64_char A s a0 a1 a2 h h0 hh hk]
    exact ⟨rfl, by simp [engineGetUInt64], by simp [engineGetUInt64]⟩
  · intro a2
    rw [decodeDouble_char A s a0 a1 a2 h h0 hh hk]
    exact ⟨rfl, by simp [engineGetDouble], by simp [engineGetDouble]⟩
  · intro a2
    rw [decodeString_char A s a0 a1 a2 h h0 hh hk]
    exact ⟨rfl, by simp [engineGetString], by simp [engineGetString]⟩
  · intro a2
    rw [decodeBytes_char A s a0 a1 a2 h h0 hh hk]
    exact ⟨rfl, by simp [engineGetBytes], by simp [engineGetBytes]⟩

/-- C1 witness: the frame property at a concrete call
(`encodeBool` on instance 5, key "k", value `true`, no expiration). -/
theorem claim1_frame_witness :
    (encodeBool ambDflt [.bigint 5, .string [107], .boolean true, .undefined] st0).2 =
        (engineSet 5 (NValueToString ambDflt false (.string [107]))
          (TypedValue.tvBool (NValueToBool ambDflt (.boolean true)))
          (expOf ambDflt .undefined) st0).2 ∧
      (encodeBool ambDflt [.bigint 5, .string [107], .boolean true, .undefined] st0).2.trace =
        st0.trace ++ [.setOp 5 (NValueToString ambDflt false (.string [107]))
          (TypedValue.tvBool (NValueToBool ambDflt (.boolean true)))
          (expOf ambDflt .undefined)] :=
  (claim1_frame ambDflt st0 (.bigint 5) (.string [107]) 5 (by decide)
    ⟨by decide, by decide⟩ (by decide)).1 (.boolean true) .undefined

/-- C6: with a handle referring to an engine instance and a non-empty
key, every encode function returns the host-boolean translation of the
success result of the engine's `set`, and every boolean or numeric
decode function returns the translation of the value the engine's `get`
returns for that key and (converted) default. -/
theorem claim6_return_values (A : Ambient) (s : EngineState) (a0 a1 : NapiValue) (h : Nat)
    (h0 : toUInt64Opt a0 = some h) (hv : refersToInstance s h)
    (hk : 0 < (NValueToString A false a1).length) :
    (∀ a2 a3, (encodeBool A [a0, a1, a2, a3] s).1 =
        BoolToNValue (engineSet h (NValueToString A false a1) (TypedValue.tvBool (NValueToBool A a2)) (expOf A a3) s).1) ∧
    (∀ a2 a3, (encodeInt32 A [a0, a1, a2, a3] s).1 =
        BoolToNValue (engineSet h (NValueToString A false a1) (TypedValue.tvInt32 (NValueToInt32 A a2)) (expOf A a3) s).1) ∧
    (∀ a2 a3, (encodeUInt32 A [a0, a1, a2, a3] s).1 =
        BoolToNValue (engineSet h (NValueToString A false a1) (TypedValue.tvUInt32 (NValueToUInt32 A a2)) (expOf A a3) s).1) ∧
    (∀ a2 a3, (encodeInt64 A [a0, a1, a2, a3] s).1 =
        BoolToNValue (engineSet h (NValueToString A false a1) (TypedValue.tvInt64 (NValueToInt64 A a2)) (expOf A a3) s).1) ∧
    (∀ a2 a3, (encodeUInt64 A [a0, a1, a2, a3] s).1 =
        BoolToNValue (engineSet h (NValueToString A false a1) (TypedValue.tvUInt64 (NValueToUInt64 A a2)) (expOf A a3) s).1) ∧
    (∀ a2 a3, (encodeDouble A [a0, a1, a2, a3] s).1 =
        BoolToNValue (engineSet h (NValueToString A false a1) (TypedValue.tvDouble (NValueToDouble A a2)) (expOf A a3) s).1) ∧
    (∀ a2 a3, (encodeString A [a0, a1, a2, a3] s).1 =
        BoolToNValue (engineSet h (NValueToString A false a1) (TypedValue.tvString (NValueToString A false a2)) (expOf A a3) s).1) ∧
    (∀ a2 a3, (encodeBytes A [a0, a1, a2, a3] s).1 =
        BoolToNValue (engineSet h (NValueToString A false a1) (TypedValue.tvBytes (NValueToMMBuffer false a2)) (expOf A a3) s).1) ∧
    (∀ a2, (decodeBool A [a0, a1, a2] s).1 =
        BoolToNValue (engineGetBool h (NValueToString A false a1) (NValueToBool A a2) s).1) ∧
    (∀ a2, (decodeInt32 A [a0, a1, a2] s).1 =
        Int32ToNValue (engineGetInt32 h (NValueToString A false a1) (NValueToInt32 A a2) s).1) ∧
    (∀ a2, (decodeUInt32 A [a0, a1, a2] s).1 =
        UInt32ToNValue (engineGetUInt32 h (NValueToString A false a1) (NValueToUInt32 A a2) s).1) ∧
    (∀ a2, (decodeInt64 A [a0, a1, a2] s).1 =
        Int64ToNValue (engineGetInt64 h (NValueToString A false a1) (NValueToInt64 A a2) s).1) ∧
    (∀ a2, (decodeUInt64 A [a0, a1, a2] s).1 =
        UInt64ToNValue (engineGetUInt64 h (NValueToString A false a1) (NValueToUInt64 A a2) s).1) ∧
    (∀ a2, (decodeDouble A [a0, a1, a2] s).1 =
        DoubleToNValue (engineGetDouble h (NValueToString A false a1) (NValueToDouble A a2) s).1) := by
  obtain ⟨hh, -⟩ := hv
  refine ⟨?_, ?_, ?_, ?_, ?_, ?_, ?_, ?_, ?_, ?_, ?_, ?_, ?_, ?_⟩
  · intro a2 a3
    rw [encodeBool_char A s a0 a1 a2 a3 h h0 hh hk]
  · intro a2 a3
    rw [encodeInt32_char A s a0 a1 a2 a3 h h0 hh hk]
  · intro a2 a3
    rw [encodeUInt32_char A s a0 a1 a2 a3 h h0 hh hk]
  · intro a2 a3
    rw [encodeInt64_char A s a0 a1 a2 a3 h h0 hh hk]
  · intro a2 a3
    rw [encodeUInt64_char A s a0 a1 a2 a3 h h0 hh hk]
  · intro a2 a3
    rw [encodeDouble_char A s a0 a1 a2 a3 h h0 hh hk]
  · intro a2 a3
    rw [encodeString_char A s a0 a1 a2 a3 h h0 hh hk]
  · intro a2 a3
    rw [encodeBytes_char A s a0 a1 a2 a3 h h0 hh hk]
  · intro a2
    rw [decodeBool_char A s a0 a1 a2 h h0 hh hk]
  · intro a2
    rw [decodeInt32_char A s a0 a1 a2 h h0 hh hk]
  · intro a2
    rw [decodeUInt32_char A s a0 a1 a2 h h0 hh hk]
  · intro a2
    rw [decodeInt64_char A s a0 a1 a2 h h0 hh hk]
  · intro a2
    rw [decodeUInt64_char A s a0 a1 a2 h h0 hh hk]
  · intro a2
    rw [decodeDouble_char A s a0 a1 a2 h h0 hh hk]

/-- C6 witness: the return-value property at a concrete call
(`decodeInt32` on instance 5, key "k", default `Int32ToNValue 3`). -/
theorem claim6_return_values_witness :
    (decodeInt32 ambDflt [.bigint 5, .string [107], Int32ToNValue 3] st0).1 =
      Int32ToNValue (engineGetInt32 5 (NValueToString ambDflt false (.string [107]))
        (NValueToInt32 ambDflt (Int32ToNValue 3)) st0).1 :=
  (claim6_return_values ambDflt st0 (.bigint 5) (.string [107]) 5 (by decide)
    ⟨by decide, by decide⟩ (by decide)).2.2.2.2.2.2.2.2.2.1 (Int32ToNValue 3)

/-- C8 counterexample: with a zero handle, `decodeInt32` does not return
the supplied default-value argument: the default 3.5 comes back as the
number 3, because the bridge converts the argument through the native
`int32_t` (ECMAScript `ToInt32`) before translating it back. -/
theorem claim8_counterexample :
    (decodeInt32 ambDflt [.bigint 0, .string [107],
        .number (.finite false (Rat.divInt 7 2))] st0).1
      = .number (F64.ofInt 3) ∧
    (decodeInt32 ambDflt [.bigint 0, .string [107],
        .number (.finite false (Rat.divInt 7 2))] st0).1
      ≠ .number (.finite false (Rat.divInt 7 2)) := by
  constructor <;> decide

/-- C8 (amended): with a zero handle or an empty converted key, every
encode function returns host `false`, every boolean/numeric decode
function returns its default-value argument converted through the
native type and back (identical to the argument whenever the argument
is exactly a host value of that native type), string and bytes decodes
return the third argument unchanged — and the engine state, its store
and its trace are untouched (the engine is never invoked). -/
theorem claim8_guard_behavior (A : Ambient) (s : EngineState) (a0 a1 : NapiValue)
    (hg : NValueToUInt64 A a0 = 0 ∨ NValueToString A false a1 = []) :
    (∀ a2 a3, encodeBool A [a0, a1, a2, a3] s = (BoolToNValue false, s)) ∧
    (∀ a2 a3, encodeInt32 A [a0, a1, a2, a3] s = (BoolToNValue false, s)) ∧
    (∀ a2 a3, encodeUInt32 A [a0, a1, a2, a3] s = (BoolToNValue false, s)) ∧
    (∀ a2 a3, encodeInt64 A [a0, a1, a2, a3] s = (BoolToNValue false, s)) ∧
    (∀ a2 a3, encodeUInt64 A [a0, a1, a2, a3] s = (BoolToNValue false, s)) ∧
    (∀ a2 a3, encodeDouble A [a0, a1, a2, a3] s = (BoolToNValue false, s)) ∧
    (∀ a2 a3, encodeString A [a0, a1, a2, a3] s = (BoolToNValue false, s)) ∧
    (∀ a2 a3, encodeBytes A [a0, a1, a2, a3] s = (BoolToNValue false, s)) ∧
    (∀ a2, decodeBool A [a0, a1, a2] s = (BoolToNValue (NValueToBool A a2), s)) ∧
    (∀ a2, decodeInt32 A [a0, a1, a2] s = (Int32ToNValue (NValueToInt32 A a2), s)) ∧
    (∀ a2, decodeUInt32 A [a0, a1, a2] s = (UInt32ToNValue (NValueToUInt32 A a2), s)) ∧
    (∀ a2, decodeInt64 A [a0, a1, a2] s = (Int64ToNValue (NValueToInt64 A a2), s)) ∧
    (∀ a2, decodeUInt64 A [a0, a1, a2] s = (UInt64ToNValue (NValueToUInt64 A a2), s)) ∧
    (∀ a2, decodeDouble A [a0, a1, a2] s = (DoubleToNValue (NValueToDouble A a2), s)) ∧
    (∀ a2, decodeString A [a0, a1, a2] s = (a2, s)) ∧
    (∀ a2, decodeBytes A [a0, a1, a2] s = (a2, s)) := by
  refine ⟨?_, ?_, ?_, ?_, ?_, ?_, ?_, ?_, ?_, ?_, ?_, ?_, ?_, ?_, ?_, ?_⟩
  · intro a2 a3
    exact encodeBool_guardFail A s a0 a1 a2 a3 hg
  · intro a2 a3
    exact encodeInt32_guardFail A s a0 a1 a2 a3 hg
  · intro a2 a3
    exact encodeUInt32_guardFail A s a0 a1 a2 a3 hg
  · intro a2 a3
    exact encodeInt64_guardFail A s a0 a1 a2 a3 hg
  · intro a2 a3
    exact encodeUInt64_guardFail A s a0 a1 a2 a3 hg
  · intro a2 a3
    exact encodeDouble_guardFail A s a0 a1 a2 a3 hg
  · intro a2 a3
    exact encodeString_guardFail A s a0 a1 a2 a3 hg
  · intro a2 a3
    exact encodeBytes_guardFail A s a0 a1 a2 a3 hg
  · intro a2
    exact decodeBool_guardFail A s a0 a1 a2 hg
  · intro a2
    exact decodeInt32_guardFail A s a0 a1 a2 hg
  · intro a2
    exact decodeUInt32_guardFail A s a0 a1 a2 hg
  · intro a2
    exact decodeInt64_guardFail A s a0 a1 a2 hg
  · intro a2
    exact decodeUInt64_guardFail A s a0 a1 a2 hg
  · intro a2
    exact decodeDouble_guardFail A s a0 a1 a2 hg
  · intro a2
    exact decodeString_guardFail A s a0 a1 a2 hg
  · intro a2
    exact decodeBytes_guardFail A s a0 a1 a2 hg

/-- C8 witness: the guard behavior at a concrete call (zero handle):
`encodeBool` returns host `false` without touching the state, and
`decodeBool` returns its boolean default. -/
theorem claim8_guard_behavior_witness :
    encodeBool ambDflt [.bigint 0, .string [107], .boolean true, .undefined] st0
      = (BoolToNValue false, st0) ∧
    decodeBool ambDflt [.bigint 0, .string [107], .boolean true] st0
      = (BoolToNValue (NValueToBool ambDflt (.boolean true)), st0) :=
  ⟨(claim8_guard_behavior ambDflt st0 (.bigint 0) (.string [107])
      (Or.inl (by decide))).1 (.boolean true) .undefined,
   (claim8_guard_behavior ambDflt st0 (.bigint 0) (.string [107])
      (Or.inl (by decide))).2.2.2.2.2.2.2.2.1 (.boolean true)⟩

/-- C9: with a handle referring to an engine instance and a non-empty
key, every encode function invokes the engine's `set` without an
expiration exactly when the fourth host argument is undefined, and with
the fourth argument converted to a uint32 expiration otherwise. -/
theorem claim9_expiration (A : Ambient) (s : EngineState) (a0 a1 : NapiValue) (h : Nat)
    (h0 : toUInt64Opt a0 = some h) (hv : refersToInstance s h)
    (hk : 0 < (NValueToString A false a1).length) :
    (∀ a2 a3, (IsNValueUndefined a3 = true →
        (encodeBool A [a0, a1, a2, a3] s).2.trace =
          s.trace ++ [.setOp h (NValueToString A false a1) (TypedValue.tvBool (NValueToBool A a2)) none]) ∧
      (IsNValueUndefined a3 = false →
        (encodeBool A [a0, a1, a2, a3] s).2.trace =
          s.trace ++ [.setOp h (NValueToString A false a1) (TypedValue.tvBool (NValueToBool A a2)) (some (NValueToUInt32 A a3))])) ∧
    (∀ a2 a3, (IsNValueUndefined a3 = true →
        (encodeInt32 A [a0, a1, a2, a3] s).2.trace =
          s.trace ++ [.setOp h (NValueToString A false a1) (TypedValue.tvInt32 (NValueToInt32 A a2)) none]) ∧
      (IsNValueUndefined a3 = false →
        (encodeInt32 A [a0, a1, a2, a3] s).2.trace =
          s.trace ++ [.setOp h (NValueToString A false a1) (TypedValue.tvInt32 (NValueToInt32 A a2)) (some (NValueToUInt32 A a3))])) ∧
    (∀ a2 a3, (IsNValueUndefined a3 = true →
        (encodeUInt32 A [a0, a1, a2, a3] s).2.trace =
          s.trace ++ [.setOp h (NValueToString A false a1) (TypedValue.tvUInt32 (NValueToUInt32 A a2)) none]) ∧
      (IsNValueUndefined a3 = false →
        (encodeUInt32 A [a0, a1, a2, a3] s).2.trace =
          s.trace ++ [.setOp h (NValueToString A false a1) (TypedValue.tvUInt32 (NValueToUInt32 A a2)) (some (NValueToUInt32 A a3))])) ∧
    (∀ a2 a3, (IsNValueUndefined a3 = true →
        (encodeInt64 A [a0, a1, a2, a3] s).2.trace =
          s.trace ++ [.setOp h (NValueToString A false a1) (TypedValue.tvInt64 (NValueToInt64 A a2)) none]) ∧
      (IsNValueUndefined a3 = false →
        (encodeInt64 A [a0, a1, a2, a3] s).2.trace =
          s.trace ++ [.setOp h (NValueToString A false a1) (TypedValue.tvInt64 (NValueToInt64 A a2)) (some (NValueToUInt32 A a3))])) ∧
    (∀ a2 a3, (IsNValueUndefined a3 = true →
        (encodeUInt64 A [a0, a1, a2, a3] s).2.trace =
          s.trace ++ [.setOp h (NValueToString A false a1) (TypedValue.tvUInt64 (NValueToUInt64 A a2)) none]) ∧
      (IsNValueUndefined a3 = false →
        (encodeUInt64 A [a0, a1, a2, a3] s).2.trace =
          s.trace ++ [.setOp h (NValueToString A false a1) (TypedValue.tvUInt64 (NValueToUInt64 A a2)) (some (NValueToUInt32 A a3))])) ∧
    (∀ a2 a3, (IsNValueUndefined a3 = true →
        (encodeDouble A [a0, a1, a2, a3] s).2.trace =
          s.trace ++ [.setOp h (NValueToString A false a1) (TypedValue.tvDouble (NValueToDouble A a2)) none]) ∧
      (IsNValueUndefined a3 = false →
        (encodeDouble A [a0, a1, a2, a3] s).2.trace =
          s.trace ++ [.setOp h (NValueToString A false a1) (TypedValue.tvDouble (NValueToDouble A a2)) (some (NValueToUInt32 A a3))])) ∧
    (∀ a2 a3, (IsNValueUndefined a3 = true →
        (encodeString A [a0, a1, a2, a3] s).2.trace =
          s.trace ++ [.setOp h (NValueToString A false a1) (TypedValue.tvString (NValueToString A false a2)) none]) ∧
      (IsNValueUndefined a3 = false →
        (encodeString A [a0, a1, a2, a3] s).2.trace =
          s.trace ++ [.setOp h (NValueToString A false a1) (TypedValue.tvString (NValueToString A false a2)) (some (NValueToUInt32 A a3))])) ∧
    (∀ a2 a3, (IsNValueUndefined a3 = true →
        (encodeBytes A [a0, a1, a2, a3] s).2.trace =
          s.trace ++ [.setOp h (NValueToString A false a1) (TypedValue.tvBytes (NValueToMMBuffer false a2)) none]) ∧
      (IsNValueUndefined a3 = false →
        (encodeBytes A [a0, a1, a2, a3] s).2.trace =
          s.trace ++ [.setOp h (NValueToString A false a1) (TypedValue.tvBytes (NValueToMMBuffer false a2)) (some (NValueToUInt32 A a3))])) := by
  obtain ⟨hh, -⟩ := hv
  refine ⟨?_, ?_, ?_, ?_, ?_, ?_, ?_, ?_⟩
  · intro a2 a3
    have hc := encodeBool_char A s a0 a1 a2 a3 h h0 hh hk
    constructor
    · intro hu
      rw [hc]
      simp [engineSet, expOf, hu]
    · intro hu
      rw [hc]
      simp [engineSet, expOf, hu]
  · intro a2 a3
    have hc := encodeInt32_char A s a0 a1 a2 a3 h h0 hh hk
    constructor
    · intro hu
      rw [hc]
      simp [engineSet, expOf, hu]
    · intro hu
      rw [hc]
      simp [engineSet, expOf, hu]
  · intro a2 a3
    have hc := encodeUInt32_char A s a0 a1 a2 a3 h h0 hh hk
    constructor
    · intro hu
      rw [hc]
      simp [engineSet, expOf, hu]
    · intro hu
      rw [hc]
      simp [engineSet, expOf, hu]
  · intro a2 a3
    have hc := encodeInt64_char A s a0 a1 a2 a3 h h0 hh hk
    constructor
    · intro hu
      rw [hc]
      simp [engineSet, expOf, hu]
    · intro hu
      rw [hc]
      simp [engineSet, expOf, hu]
  · intro a2 a3
    have hc := encodeUInt64_char A s a0 a1 a2 a3 h h0 hh hk
    constructor
    · intro hu
      rw [hc]
      simp [engineSet, expOf, hu]
    · intro hu
      rw [hc]
      simp [engineSet, expOf, hu]
  · intro a2 a3
    have hc := encodeDouble_char A s a0 a1 a2 a3 h h0 hh hk
    constructor
    · intro hu
      rw [hc]
      simp [engineSet, expOf, hu]
    · intro hu
      rw [hc]
      simp [engineSet, expOf, hu]
  · intro a2 a3
    have hc := encodeString_char A s a0 a1 a2 a3 h h0 hh hk
    constructor
    · intro hu
      rw [hc]
      simp [engineSet, expOf, hu]
    · intro hu
      rw [hc]
      simp [engineSet, expOf, hu]
  · intro a2 a3
    have hc := encodeBytes_char A s a0 a1 a2 a3 h h0 hh hk
    constructor
    · intro hu
      rw [hc]
      simp [engineSet, expOf, hu]
    · intro hu
      rw [hc]
      simp [engineSet, expOf, hu]

/-- C9 witness: a concrete `encodeBool` call with an undefined fourth
argument performs a `set` without expiration. -/
theorem claim9_expiration_witness :
    (encodeBool ambDflt [.bigint 5, .string [107], .boolean true, .undefined] st0).2.trace =
      st0.trace ++ [.setOp 5 (NValueToString ambDflt false (.string [107]))
        (TypedValue.tvBool (NValueToBool ambDflt (.boolean true))) none] :=
  ((claim9_expiration ambDflt st0 (.bigint 5) (.string [107]) 5 (by decide)
      ⟨by decide, by decide⟩ (by decide)).1 (.boolean true) .undefined).1 rfl

/-- C7 counterexample: two calls of `NValueToBool` with the same host
argument (a number, for which `napi_get_value_bool` fails and the C
function returns its uninitialized stack variable) but different
uninitialized-stack contents produce different outputs, under the same
capacity policy — the result does not depend only on the argument. -/
theorem claim7_counterexample :
    ambDflt.cap = ambJunk.cap ∧
    NValueToBool ambDflt (.number (F64.ofInt 0)) ≠
      NValueToBool ambJunk (.number (F64.ofInt 0)) :=
  ⟨rfl, by decide⟩

/-- C7 (amended): every host-to-native conversion function is
deterministic on arguments of its expected host type: its output then
depends only on the argument (and, for `NValueToString`, on the fixed
`std::string` capacity policy), not on the uninitialized-stack contents
or any engine state.  The native-to-host creators and the remaining
helpers take no ambient context at all in this embedding, so their
determinism is definitional. -/
theorem claim7_determinism (A B : Ambient) (hcap : A.cap = B.cap) :
    (∀ v b, toBoolOpt v = some b → NValueToBool A v = NValueToBool B v) ∧
    (∀ v n, toInt32Opt v = some n → NValueToInt32 A v = NValueToInt32 B v) ∧
    (∀ v n, toUInt32Opt v = some n → NValueToUInt32 A v = NValueToUInt32 B v) ∧
    (∀ v n, toInt64Opt v = some n → NValueToInt64 A v = NValueToInt64 B v) ∧
    (∀ v n, toUInt64Opt v = some n → NValueToUInt64 A v = NValueToUInt64 B v) ∧
    (∀ v d, toDoubleOpt v = some d → NValueToDouble A v = NValueToDouble B v) ∧
    (∀ mu v, NValueToString A mu v = NValueToString B mu v) := by
  refine ⟨?_, ?_, ?_, ?_, ?_, ?_, ?_⟩
  · intro v b hb
    simp [NValueToBool, hb]
  · intro v n hn
    simp [NValueToInt32, hn]
  · intro v n hn
    simp [NValueToUInt32, hn]
  · intro v n hn
    simp [NValueToInt64, hn]
  · intro v n hn
    simp [NValueToUInt64, hn]
  · intro v d hd
    simp [NValueToDouble, hd]
  · intro mu v
    unfold NValueToString
    rw [hcap]

/-- C7 witness: the determinism of `NValueToBool` across two different
uninitialized-stack scenarios at a well-typed concrete argument. -/
theorem claim7_determinism_witness :
    NValueToBool ambDflt (.boolean true) = NValueToBool ambJunk (.boolean true) :=
  (claim7_determinism ambDflt ambJunk rfl).1 (.boolean true) true rfl

/-- C10: `getDefaultMMKV` attempts the encrypted default instance only
for a defined, non-empty crypt key; whenever that attempt was not made
or returned a null instance it falls back to the plain default open
with the same mode, and the returned uint64 handle is the encrypted
instance when one was obtained and the plain default instance
otherwise. -/
theorem claim10_default_instance (A : Ambient) (s : EngineState) (a0 a1 : NapiValue)
    (mode : Int) (h0 : toInt32Opt a0 = some mode) :
    (NValueToString A true a1 ≠ [] →
      getDefaultMMKV A [a0, a1] s =
        (UInt64ToNValue (if s.encHandle = 0 then s.defHandle else s.encHandle),
         if s.encHandle = 0 then
           { s with trace := s.trace ++
               [.openOp mode (some (NValueToString A true a1)), .openOp mode none] }
         else
           { s with trace := s.trace ++
               [.openOp mode (some (NValueToString A true a1))] })) ∧
    (NValueToString A true a1 = [] →
      getDefaultMMKV A [a0, a1] s =
        (UInt64ToNValue s.defHandle,
         { s with trace := s.trace ++ [.openOp mode none] })) := by
  constructor
  · intro hc
    have hl : 0 < (NValueToString A true a1).length := List.length_pos.mpr hc
    unfold getDefaultMMKV
    simp only [List.getD_cons_zero, List.getD_cons_succ, h0]
    rw [if_pos hl]
    by_cases he : s.encHandle = 0 <;>
      simp [engineDefaultMMKV, he, List.append_assoc]
  · intro hc
    unfold getDefaultMMKV
    simp only [List.getD_cons_zero, List.getD_cons_succ, h0]
    rw [hc]
    simp [engineDefaultMMKV]

/-- C10 witness: a concrete call with a non-empty crypt key on a state
whose encrypted open succeeds (handle 7). -/
theorem claim10_default_instance_witness :
    getDefaultMMKV ambDflt [.number (F64.ofInt 1), .string [99]] st0 =
      (UInt64ToNValue (if st0.encHandle = 0 then st0.defHandle else st0.encHandle),
       if st0.encHandle = 0 then
         { st0 with trace := st0.trace ++
             [.openOp 1 (some (NValueToString ambDflt true (.string [99]))), .openOp 1 none] }
       else
         { st0 with trace := st0.trace ++
             [.openOp 1 (some (NValueToString ambDflt true (.string [99])))] }) :=
  (claim10_default_instance ambDflt st0 (.number (F64.ofInt 1)) (.string [99]) 1
      (by decide)).1 (by decide)
